import Mathlib

/-!
Verification of core algorithms of the elys-network LP-Rebalancing-Vault
(autonomous vault manager, AVM) against a shallow embedding in Lean 4.

Modeling conventions, used consistently below:
* Go float64 values are modeled by exact rationals.  The code under
  verification funnels all monetary arithmetic through the cosmos SDK
  LegacyDec string-decimal type precisely to avoid binary-float drift, so the
  decimal pipeline is modeled exactly; the final binary conversion
  (LegacyDec.Float64) is modeled as exact.  Where the Go code checks
  IsNaN/IsInf on values that are rationals in the model, the check cannot
  fire and is either dropped or kept as a vacuous branch, as noted at each
  definition.  The pool scorer is the one component whose claim is about
  non-finite values; there float64 is modeled by Option of a rational, where
  none collapses NaN and the two infinities (the code only ever tests
  IsNaN and IsInf together, so the collapse is faithful to every branch).
* Go fmt verbs %.Nf are modeled as round-half-even to N decimal places of
  the exact value, which is what Go strconv formatting performs.
* cosmos sdkmath.Int is modeled by Int; LegacyDec division by a power of ten
  and multiplication by integers are exact in 18 decimal places for the
  precisions (at most 18) used here, and are modeled exactly.
* Go maps are modeled by association lists in insertion order.  Every map
  iteration in the verified code is order-independent in its observable
  result (sums, per-key updates whose right-hand sides only read state fixed
  before the loop, and error/ok status of validation sweeps), as noted where
  it matters.
* External RPC simulators (swap/join/exit estimation) are modeled as
  function parameters returning Except results, matching the call signature
  used by the planner.
-/

namespace AVM

/-- Round a rational to the nearest integer, ties to even.  This models the
rounding performed by Go fmt %.Nf formatting (applied to the scaled value). -/
def roundHalfEven (q : ℚ) : ℤ :=
  if q - (⌊q⌋ : ℚ) < 1/2 then ⌊q⌋
  else if 1/2 < q - (⌊q⌋ : ℚ) then ⌊q⌋ + 1
  else if ⌊q⌋ % 2 = 0 then ⌊q⌋ else ⌊q⌋ + 1

theorem roundHalfEven_dist (q : ℚ) : |(roundHalfEven q : ℚ) - q| ≤ 1/2 := by
  unfold roundHalfEven
  have h0 : (0:ℚ) ≤ q - (⌊q⌋ : ℚ) := by
    have := Int.floor_le q; linarith
  have h1 : q - (⌊q⌋ : ℚ) < 1 := by
    have := Int.lt_floor_add_one q; push_cast at this ⊢; linarith
  split_ifs with hlt hgt hev
  · rw [abs_sub_comm, abs_of_nonneg (by linarith)]; linarith
  · rw [abs_of_nonneg (by push_cast; linarith)]; push_cast; linarith
  · rw [abs_sub_comm, abs_of_nonneg (by linarith)]; linarith
  · rw [abs_of_nonneg (by push_cast; linarith)]; push_cast; linarith

theorem roundHalfEven_nonneg (q : ℚ) (hq : 0 ≤ q) : 0 ≤ roundHalfEven q := by
  unfold roundHalfEven
  have hf : (0:ℤ) ≤ ⌊q⌋ := Int.floor_nonneg.mpr hq
  split_ifs <;> omega

theorem roundHalfEven_le (q : ℚ) : (roundHalfEven q : ℚ) ≤ q + 1/2 := by
  have := roundHalfEven_dist q
  have := abs_le.mp this
  linarith [this.2]

namespace utils

/-- Embedding of utils.SDKIntToFloat64 (src/internal/utils/conversion.go).
The nil check on the SDK integer cannot arise for an Int value and is
dropped; LegacyDec division by 10 to the precision (at most 18) is exact in
18 decimal places and is modeled exactly; the final Float64 call is modeled
as exact (see the file header). -/
def SDKIntToFloat64 (amount : ℤ) (precision : ℤ) : Except String ℚ :=
  if precision < 0 ∨ 18 < precision then .error "precision is invalid"
  else if amount < 0 then .error "amount is negative"
  else .ok ((amount : ℚ) / (10:ℚ) ^ precision.toNat)

/-- Embedding of utils.Float64ToSDKInt (src/internal/utils/conversion.go).
The code formats the float with %.Nf (N the precision), parses the string as
a LegacyDec, multiplies by 10^N and truncates: since the formatted string
has exactly N decimal places, the truncation is exact and the whole pipeline
equals round-half-even of amount * 10^N.  NaN/Inf checks cannot fire in the
rational model and are dropped. -/
def Float64ToSDKInt (amount : ℚ) (precision : ℤ) : Except String ℤ :=
  if precision < 0 ∨ 18 < precision then .error "precision is invalid"
  else if amount < 0 then .error "amount is negative"
  else if amount = 0 then .ok 0
  else .ok (roundHalfEven (amount * (10:ℚ) ^ precision.toNat))

end utils

/-- C8: for every finite non-negative value x (modeled as an exact rational)
and precision p in [0,18], converting x to a fixed-point integer with
Float64ToSDKInt and back with SDKIntToFloat64 succeeds and yields a value
equal to x within 10^(-p). -/
theorem conversion_roundtrip_within_precision (x : ℚ) (p : ℤ)
    (hx : 0 ≤ x) (hp0 : 0 ≤ p) (hp : p ≤ 18) :
    ∃ n y, utils.Float64ToSDKInt x p = .ok n ∧
      utils.SDKIntToFloat64 n p = .ok y ∧
      |y - x| ≤ 1 / (10:ℚ) ^ p.toNat := by
  have hrange : ¬ (p < 0 ∨ 18 < p) := by omega
  have hneg : ¬ x < 0 := not_lt.mpr hx
  by_cases hzero : x = 0
  · refine ⟨0, 0, ?_, ?_, ?_⟩
    · simp [utils.Float64ToSDKInt, hrange, hneg, hzero]
    · simp [utils.SDKIntToFloat64, hrange]
    · rw [hzero, sub_zero, abs_zero]
      positivity
  · set n := roundHalfEven (x * (10:ℚ) ^ p.toNat) with hn
    have hpowpos : (0:ℚ) < (10:ℚ) ^ p.toNat := by positivity
    have hnn : 0 ≤ n := roundHalfEven_nonneg _ (by positivity)
    refine ⟨n, (n : ℚ) / (10:ℚ) ^ p.toNat, ?_, ?_, ?_⟩
    · simp [utils.Float64ToSDKInt, hrange, hneg, hzero, hn]
    · simp [utils.SDKIntToFloat64, hrange, not_lt.mpr hnn]
    · have hdist : |(n : ℚ) - x * (10:ℚ) ^ p.toNat| ≤ 1/2 := roundHalfEven_dist _
      have key : (n : ℚ) / (10:ℚ) ^ p.toNat - x =
          ((n : ℚ) - x * (10:ℚ) ^ p.toNat) / (10:ℚ) ^ p.toNat := by
        field_simp
        ring
      rw [key, abs_div, abs_of_pos hpowpos]
      gcongr
      linarith

/-- Witness for C8 at x = 3/2, p = 0. -/
theorem conversion_roundtrip_within_precision_witness :
    (0:ℚ) ≤ 3/2 ∧ (0:ℤ) ≤ 0 ∧ (0:ℤ) ≤ 18 ∧
    ∃ n y, utils.Float64ToSDKInt (3/2) 0 = .ok n ∧
      utils.SDKIntToFloat64 n 0 = .ok y ∧
      |y - 3/2| ≤ 1 / (10:ℚ) ^ (0:ℤ).toNat :=
  ⟨by norm_num, by norm_num, by norm_num,
    conversion_roundtrip_within_precision (3/2) 0 (by norm_num) (by norm_num) (by norm_num)⟩

namespace analyzer

/-- Historical price sample (types.PriceData); the timestamp is modeled as a
natural number, Before as strict order. -/
structure PriceData where
  timestamp : ℕ
  price : ℚ
deriving DecidableEq, Repr

/-- Insertion of one sample into a list sorted ascending by timestamp. -/
def insertByTimestamp (x : PriceData) : List PriceData → List PriceData
  | [] => [x]
  | y :: ys =>
    if x.timestamp < y.timestamp then x :: y :: ys else y :: insertByTimestamp x ys

/-- Model of the sort.Slice call in CalculateVolatility: insertion sort
ascending by timestamp.  The Go sort is unstable, but on inputs with
distinct timestamps every comparison sort agrees with this one. -/
def sortByTimestamp (l : List PriceData) : List PriceData :=
  l.foldr insertByTimestamp []

/-- Log-returns of consecutive samples, dropping pairs in which either price
is nonpositive, exactly as the loop in CalculateVolatility does.  ln is the
abstract natural logarithm, a parameter of the model (its values never
influence control flow in the code). -/
def logReturns (ln : ℚ → ℚ) : List PriceData → List ℚ
  | [] => []
  | [_] => []
  | a :: b :: rest =>
    if a.price ≤ 0 ∨ b.price ≤ 0 then logReturns ln (b :: rest)
    else ln (b.price / a.price) :: logReturns ln (b :: rest)

/-- Embedding of analyzer.CalculateVolatility
(src/internal/analyzer/SelectTopPools.go, third section).  sqrtQ is the
abstract square root, a parameter of the model. -/
def CalculateVolatility (ln sqrtQ : ℚ → ℚ) (prices : List PriceData)
    (annualizationFactor : ℚ) : Except String ℚ :=
  if prices.length < 2 then .error "insufficient data points to calculate volatility"
  else
    let logR := logReturns ln (sortByTimestamp prices)
    if logR.length = 0 then .error "insufficient data points to calculate volatility"
    else
      let mean := logR.sum / (logR.length : ℚ)
      let sumSqDiff := (logR.map (fun r => (r - mean) ^ 2)).sum
      let variance := sumSqDiff / (logR.length : ℚ)
      let stdDev := sqrtQ variance
      .ok (stdDev * sqrtQ annualizationFactor)

/-- Specification-side formula: population standard deviation (divide by N,
not N-1) of a list of values, under the abstract square root. -/
def populationStdDev (sqrtQ : ℚ → ℚ) (l : List ℚ) : ℚ :=
  sqrtQ ((l.map (fun r => (r - l.sum / (l.length : ℚ)) ^ 2)).sum / (l.length : ℚ))

end analyzer

/-- C7 counterexample: the price series (t=0,p=1),(t=1,p=2),(t=2,p=-1) has
exactly one usable return after dropping the pair containing the
nonpositive price, which is fewer than 2, yet CalculateVolatility succeeds
rather than failing with InsufficientData.  The ok/error status of the code
does not depend on the interpretation of ln and sqrt, which are instantiated
with concrete functions here. -/
theorem volatility_one_usable_return_counterexample :
    (analyzer.logReturns (fun _ => 0) (analyzer.sortByTimestamp
      [⟨0, 1⟩, ⟨1, 2⟩, ⟨2, -1⟩])).length = 1 ∧
    (analyzer.CalculateVolatility (fun _ => 0) (fun _ => 0)
      [⟨0, 1⟩, ⟨1, 2⟩, ⟨2, -1⟩] 8760).isOk = true := by
  constructor <;> rfl

/-- C7 (amended): CalculateVolatility fails with the InsufficientData error
exactly when the series has fewer than 2 samples or no usable return
survives the dropping of pairs with a nonpositive price; with at least one
usable return it returns the population standard deviation of the
log-returns multiplied by the square root of the annualization factor. -/
theorem volatility_error_and_formula (ln sqrtQ : ℚ → ℚ)
    (prices : List analyzer.PriceData) (annualizationFactor : ℚ) :
    (prices.length < 2 ∨
        (analyzer.logReturns ln (analyzer.sortByTimestamp prices)).length = 0 →
      analyzer.CalculateVolatility ln sqrtQ prices annualizationFactor =
        .error "insufficient data points to calculate volatility") ∧
    (2 ≤ prices.length →
      (analyzer.logReturns ln (analyzer.sortByTimestamp prices)).length ≠ 0 →
      analyzer.CalculateVolatility ln sqrtQ prices annualizationFactor =
        .ok (analyzer.populationStdDev sqrtQ
              (analyzer.logReturns ln (analyzer.sortByTimestamp prices)) *
            sqrtQ annualizationFactor)) := by
  constructor
  · intro h
    unfold analyzer.CalculateVolatility
    rcases h with h | h
    · simp [h]
    · by_cases hlen : prices.length < 2
      · simp [hlen]
      · simp [hlen, h]
  · intro hlen hret
    unfold analyzer.CalculateVolatility
    rw [if_neg (by omega)]
    simp only [hret, if_false]
    unfold analyzer.populationStdDev
    simp [hret]

/-- Witness for C7 amended theorem: a two-sample positive series has one
usable return and the formula value; a one-sample series errors. -/
theorem volatility_error_and_formula_witness :
    analyzer.CalculateVolatility (fun _ => 0) (fun q => q)
        [⟨0, 1⟩, ⟨1, 2⟩] 4 = .ok 0 ∧
    analyzer.CalculateVolatility (fun _ => 0) (fun q => q) [⟨0, 1⟩] 4 =
      .error "insufficient data points to calculate volatility" := by
  constructor
  · have h := (volatility_error_and_formula (fun _ => 0) (fun q => q)
      [⟨0, 1⟩, ⟨1, 2⟩] 4).2 (by norm_num) (by decide)
    rw [h]
    congr 1
    norm_num [analyzer.populationStdDev, analyzer.logReturns,
      analyzer.sortByTimestamp, analyzer.insertByTimestamp]
  · have h := (volatility_error_and_formula (fun _ => 0) (fun q => q)
      [⟨0, 1⟩] 4).1 (Or.inl (by norm_num))
    exact h

namespace wallet

/-- Tolerance factor decimal used by the executor: %.18f formatting of the
float (1 - tol) parsed as a LegacyDec, modeled as round-half-even to 18
decimal places of the exact value. -/
def toleranceFactor18 (tol : ℚ) : ℚ :=
  (roundHalfEven ((1 - tol) * (10:ℚ) ^ 18) : ℚ) / (10:ℚ) ^ 18

/-- Embedding of wallet.calculateMinimumSwapAmount
(src/internal/wallet/transactions.go).  LegacyDec multiplication of an
integer by an 18-decimal value is exact and TruncateInt on the nonnegative
product is the floor. -/
def calculateMinimumSwapAmount (expectedTokenOut : ℤ) (slippageTolerancePct : ℚ) :
    Except String ℤ :=
  if expectedTokenOut ≠ 0 ∧ 0 < slippageTolerancePct then
    if expectedTokenOut < 0 then .error "expected token out cannot be negative"
    else if 1 ≤ slippageTolerancePct then .error "slippage tolerance must be less than 100%"
    else if 1 - slippageTolerancePct ≤ 0 then .error "tolerance factor must be positive"
    else
      let calculated := ⌊(expectedTokenOut : ℚ) * toleranceFactor18 slippageTolerancePct⌋
      let minAmount : ℤ := if calculated = 0 then 1 else calculated
      if minAmount < 0 then .error "calculated minimum amount is negative"
      else .ok minAmount
  else .ok 1

/-- Embedding of wallet.calculateMinimumShares
(src/internal/wallet/transactions.go); the body mirrors the swap variant
with the expected shares in place of the expected token out. -/
def calculateMinimumShares (expectedSharesOut : ℤ) (slippageTolerancePct : ℚ) :
    Except String ℤ :=
  if expectedSharesOut ≠ 0 ∧ 0 < slippageTolerancePct then
    if expectedSharesOut < 0 then .error "expected shares out cannot be negative"
    else if 1 ≤ slippageTolerancePct then .error "slippage tolerance must be less than 100%"
    else if 1 - slippageTolerancePct ≤ 0 then .error "tolerance factor must be positive"
    else
      let calculated := ⌊(expectedSharesOut : ℚ) * toleranceFactor18 slippageTolerancePct⌋
      let minShares : ℤ := if calculated = 0 then 1 else calculated
      if minShares < 0 then .error "calculated minimum shares is negative"
      else .ok minShares
  else .ok 1

end wallet

/-- C6 counterexample: with expected output 100 and slippage tolerance 0, the
claim formula gives floor(100 * (1 - 0)) = 100, but the executor skips the
computation (the branch requires a strictly positive tolerance) and embeds
the default minimum of 1. -/
theorem minimum_swap_amount_zero_tolerance_counterexample :
    wallet.calculateMinimumSwapAmount 100 0 = .ok 1 ∧
    (1 : ℤ) ≠ ⌊(100 : ℚ) * (1 - 0)⌋ := by
  constructor
  · rfl
  · norm_num

/-- C6 (amended): for expected output at least 0 and tolerance in [0,1), the
embedded minimum equals floor(expected * r18(1 - tolerance)) with a floor of
1 unit, where r18 rounds the factor to 18 decimal places, whenever expected
is nonzero and the tolerance is strictly positive; when the tolerance is 0
or the expected output is 0 the executor embeds the default minimum of 1.
The same holds for the minimum shares of a deposit. -/
theorem minimum_out_amended (e : ℤ) (tol : ℚ) (he : 0 ≤ e)
    (h0 : 0 ≤ tol) (h1 : tol < 1) :
    wallet.calculateMinimumSwapAmount e tol =
      .ok (if e ≠ 0 ∧ 0 < tol then
            max 1 ⌊(e : ℚ) * wallet.toleranceFactor18 tol⌋ else 1) ∧
    wallet.calculateMinimumShares e tol =
      .ok (if e ≠ 0 ∧ 0 < tol then
            max 1 ⌊(e : ℚ) * wallet.toleranceFactor18 tol⌋ else 1) := by
  have hfac : 0 ≤ wallet.toleranceFactor18 tol := by
    unfold wallet.toleranceFactor18
    have : (0:ℚ) ≤ (roundHalfEven ((1 - tol) * (10:ℚ) ^ 18) : ℚ) := by
      exact_mod_cast roundHalfEven_nonneg _ (by nlinarith)
    positivity
  have hcalc : 0 ≤ ⌊(e : ℚ) * wallet.toleranceFactor18 tol⌋ := by
    apply Int.floor_nonneg.mpr
    have : (0:ℚ) ≤ (e : ℚ) := by exact_mod_cast he
    positivity
  have hm : (if ⌊(e : ℚ) * wallet.toleranceFactor18 tol⌋ = 0 then (1:ℤ)
      else ⌊(e : ℚ) * wallet.toleranceFactor18 tol⌋) =
      max 1 ⌊(e : ℚ) * wallet.toleranceFactor18 tol⌋ := by
    by_cases hz : ⌊(e : ℚ) * wallet.toleranceFactor18 tol⌋ = 0
    · simp [hz]
    · simp only [if_neg hz]
      omega
  have hmnn : ¬ (max 1 ⌊(e : ℚ) * wallet.toleranceFactor18 tol⌋ < 0) := by omega
  have hne : ¬ e < 0 := not_lt.mpr he
  have hnt : ¬ (1:ℚ) ≤ tol := not_le.mpr h1
  have hnf : ¬ (1:ℚ) - tol ≤ 0 := by intro hle; nlinarith
  constructor
  · unfold wallet.calculateMinimumSwapAmount
    by_cases hcond : e ≠ 0 ∧ 0 < tol
    · rw [if_pos hcond, if_neg hne, if_neg hnt, if_neg hnf]
      dsimp only
      rw [hm, if_neg hmnn, if_pos hcond]
    · rw [if_neg hcond, if_neg hcond]
  · unfold wallet.calculateMinimumShares
    by_cases hcond : e ≠ 0 ∧ 0 < tol
    · rw [if_pos hcond, if_neg hne, if_neg hnt, if_neg hnf]
      dsimp only
      rw [hm, if_neg hmnn, if_pos hcond]
    · rw [if_neg hcond, if_neg hcond]

/-- Witness for C6 amended theorem at expected 100, tolerance 1/10. -/
theorem minimum_out_amended_witness :
    wallet.calculateMinimumSwapAmount 100 (1/10) = .ok 90 ∧
    wallet.calculateMinimumShares 100 (1/10) = .ok 90 := by
  have h := minimum_out_amended 100 (1/10) (by norm_num) (by norm_num) (by norm_num)
  have he : (if (100:ℤ) ≠ 0 ∧ (0:ℚ) < 1/10 then
      max 1 ⌊(((100:ℤ)) : ℚ) * wallet.toleranceFactor18 (1/10)⌋ else 1) = 90 := by
    rw [if_pos ⟨by norm_num, by norm_num⟩]
    have : wallet.toleranceFactor18 (1/10) = 9/10 := by
      unfold wallet.toleranceFactor18 roundHalfEven
      norm_num
    rw [this]
    norm_num
  rw [he] at h
  exact h

namespace types

/-- Pool identifier (types.PoolID, a uint64). -/
abbrev PoolID := ℕ

/-- Scored pool (types.PoolScoreResult); only the id and the final score are
read by the selector and the allocator. -/
structure PoolScoreResult where
  poolID : PoolID
  score : ℚ
deriving DecidableEq, Repr

/-- Token fields read by the embedded components (types.Token). -/
structure Token where
  symbol : String
  denom : String
  ibcDenom : String
  precision : ℤ
  priceUSD : ℚ
deriving DecidableEq, Repr

/-- Pool fields read by the embedded components (types.Pool). -/
structure Pool where
  id : PoolID
  tokenA : Token
  tokenB : Token
  tvlUSD : ℚ
  isSmartShielded : Bool
  totalShares : ℤ
deriving DecidableEq, Repr

/-- Scoring parameters read by the selector, the allocator and the planner
(types.ScoringParameters); float64 fields are modeled as rationals. -/
structure ScoringParameters where
  maxPools : ℤ
  minAllocation : ℚ
  maxAllocation : ℚ
  rebalanceThresholdAmount : ℚ
  maxRebalancePercentPerCycle : ℚ
  minLiquidUSDCBuffer : ℚ
  smartShieldSlippagePercent : ℚ
  normalPoolSlippagePercent : ℚ
  viableSwapReductionFactor : ℚ
  viableDepositReductionFactor : ℚ
  elysForcedAllocationMinimum : ℚ
deriving DecidableEq, Repr

end types

/-- Model of Go math.Abs on the rational float model. -/
def mathAbs (q : ℚ) : ℚ := if q < 0 then -q else q

theorem mathAbs_eq_abs (q : ℚ) : mathAbs q = |q| := by
  unfold mathAbs
  rcases lt_or_le q 0 with h | h
  · rw [if_pos h, abs_of_neg h]
  · rw [if_neg (not_lt.mpr h), abs_of_nonneg h]

/-- Go map read m[k], modeled on an association list (first matching key;
keys are unique wherever the code builds these maps). -/
def lookupID {β : Type} : List (types.PoolID × β) → types.PoolID → Option β
  | [], _ => none
  | p :: rest, k => if p.1 = k then some p.2 else lookupID rest k

namespace analyzer

open types

/-- Constant maxAllocationIterations from SelectTopPools.go. -/
def maxAllocationIterations : ℕ := 20

/-- Sum of the values of an association list, as computed by the several Go
loops that accumulate map values (order-independent). -/
def sumValues (l : List (PoolID × ℚ)) : ℚ := (l.map (·.2)).sum

/-- Go map write m[k] = v, modeled on an association list in insertion
order. -/
def upsert (l : List (PoolID × ℚ)) (k : PoolID) (v : ℚ) : List (PoolID × ℚ) :=
  if l.any (fun p => p.1 = k) then l.map (fun p => if p.1 = k then (k, v) else p)
  else l ++ [(k, v)]

/-- Descending-by-score comparator of the sort.Slice call in SelectTopPools;
insertionSort with this relation is a stable descending sort (the Go sort is
unstable; on score ties the resulting order may differ, which the theorems
below do not depend on). -/
def scoreDescRel (a b : PoolScoreResult) : Prop := b.score ≤ a.score

instance : DecidableRel scoreDescRel := fun a b => inferInstanceAs (Decidable (b.score ≤ a.score))

instance : IsTotal PoolScoreResult scoreDescRel := ⟨fun a b => le_total b.score a.score⟩

instance : IsTrans PoolScoreResult scoreDescRel :=
  ⟨fun _ _ _ h1 h2 => le_trans h2 h1⟩

/-- The top-N prefix of the descending sort (SelectTopPools initial
selection, before projection to ids). -/
def topPools (scoredPools : List PoolScoreResult) (params : ScoringParameters) :
    List PoolScoreResult :=
  (List.insertionSort scoreDescRel scoredPools).take
    (min params.maxPools.toNat scoredPools.length)

def topPoolIDs (scoredPools : List PoolScoreResult) (params : ScoringParameters) :
    List PoolID :=
  (topPools scoredPools params).map (·.poolID)

/-- One step of the ELYS-pool scan in SelectTopPools: the first pool whose
token set contains the uelys denom becomes the candidate; a later one
replaces it when the scan of the input list finds the entry of the current
candidate with a strictly smaller score.  The Go sentinel pair
(elysPoolFound, elysPoolID) is modeled as an Option. -/
def elysStep (scoredPools : List PoolScoreResult) (poolsDataMap : List (PoolID × Pool))
    (acc : Option PoolID) (ps : PoolScoreResult) : Option PoolID :=
  match lookupID poolsDataMap ps.poolID with
  | some poolData =>
    if poolData.tokenA.denom = "uelys" ∨ poolData.tokenB.denom = "uelys" then
      match acc with
      | none => some ps.poolID
      | some best =>
        if scoredPools.any (fun e => e.poolID = best ∧ e.score < ps.score) then
          some ps.poolID
        else some best
    else acc
  | none => acc

/-- The ELYS-pool scan over the whole input (performed inside the validation
loop of SelectTopPools, in input order). -/
def elysScan (scoredPools : List PoolScoreResult) (poolsDataMap : List (PoolID × Pool)) :
    Option PoolID :=
  scoredPools.foldl (elysStep scoredPools poolsDataMap) none

/-- Embedding of analyzer.SelectTopPools (forced-asset variant,
src/internal/analyzer/SelectTopPools.go).  The NaN/Inf score filter cannot
fire in the rational model, so the valid pool list is the input list. -/
def SelectTopPools (scoredPools : List PoolScoreResult) (params : ScoringParameters)
    (poolsDataMap : List (PoolID × Pool)) : Except String (List PoolID × PoolID) :=
  if scoredPools.length = 0 then .error "no pools provided for selection"
  else if params.maxPools ≤ 0 then .error "MaxPools parameter must be positive"
  else
    let selectedPoolsList := topPoolIDs scoredPools params
    match elysScan scoredPools poolsDataMap with
    | some elysPoolID =>
      if selectedPoolsList.contains elysPoolID then .ok (selectedPoolsList, elysPoolID)
      else .ok (selectedPoolsList.dropLast ++ [elysPoolID], elysPoolID)
    | none => .ok (selectedPoolsList, 0)

/-- Effective minimum allocation for a pool: the forced ELYS minimum for the
ELYS pool (when one was designated), the standard minimum otherwise.  This
factors the computation that DetermineTargetAllocations inlines twice. -/
def effectiveMin (params : ScoringParameters) (elysPoolID id : PoolID) : ℚ :=
  if id = elysPoolID ∧ elysPoolID ≠ 0 then params.elysForcedAllocationMinimum
  else params.minAllocation

/-- State of the iterative constraint enforcement of
DetermineTargetAllocations. -/
structure AllocState where
  locked : List (PoolID × ℚ)
  unlocked : List (PoolID × ℚ)
  allocations : List (PoolID × ℚ)
deriving DecidableEq, Repr

/-- One iteration of the constraint-enforcement loop of
DetermineTargetAllocations.  Returns the new state, the madeChanges flag and
whether the loop breaks (all pools locked).  Every per-pool decision reads
only remaining and totalUnlocked, which are fixed before the sweep, so the
random Go map iteration order does not affect the outcome; the sweep is
modeled in insertion order. -/
def allocIter (params : ScoringParameters) (elysPoolID : PoolID) (st : AllocState) :
    Except String (AllocState × Bool × Bool) :=
  let remaining0 := 1 - sumValues st.locked
  if remaining0 < -(1/100000) then
    .error "allocation constraint enforcement resulted in over-allocation"
  else
    let remaining := if remaining0 < 0 then 0 else remaining0
    let totalUnlocked := sumValues st.unlocked
    if st.unlocked.length = 0 then .ok (st, false, true)
    else if totalUnlocked ≤ 0 then
      .error "total unlocked score is non-positive during constraint enforcement"
    else
      let swept := st.unlocked.foldl
        (fun (acc : List (PoolID × ℚ) × List (PoolID × ℚ) × Bool) p =>
          let currentAlloc := (p.2 / totalUnlocked) * remaining
          let allocs := upsert acc.1 p.1 currentAlloc
          let minAlloc := effectiveMin params elysPoolID p.1
          if currentAlloc < minAlloc then (allocs, acc.2.1 ++ [(p.1, minAlloc)], true)
          else if params.maxAllocation < currentAlloc then
            (allocs, acc.2.1 ++ [(p.1, params.maxAllocation)], true)
          else (allocs, acc.2.1, acc.2.2))
        (st.allocations, [], false)
      let lockedIDs := swept.2.1.map (·.1)
      .ok (⟨st.locked ++ swept.2.1,
            st.unlocked.filter (fun p => ¬ lockedIDs.contains p.1),
            swept.1⟩, swept.2.2, false)

/-- The while loop of the constraint enforcement, with the remaining
iteration budget as fuel (the Go loop runs while madeChanges and fewer than
maxAllocationIterations iterations have run; the returned flag is the final
madeChanges value, true when the budget was exhausted with changes still
pending). -/
def allocLoop (params : ScoringParameters) (elysPoolID : PoolID) :
    ℕ → AllocState → Except String (AllocState × Bool)
  | 0, st => .ok (st, true)
  | fuel + 1, st =>
    match allocIter params elysPoolID st with
    | .error e => .error e
    | .ok (st2, changed, brk) =>
      if brk then .ok (st2, false)
      else if changed then allocLoop params elysPoolID fuel st2
      else .ok (st2, false)

/-- Validation sweep of the selected pools in DetermineTargetAllocations:
every selected id must have a score entry with a strictly positive score
(the NaN/Inf check cannot fire in the rational model). -/
def validatePools (ids : List PoolID) (m : List (PoolID × PoolScoreResult)) :
    Except String (List (PoolID × ℚ)) :=
  match ids with
  | [] => .ok []
  | id :: rest =>
    match lookupID m id with
    | none => .error "score result not found for selected pool ID"
    | some r =>
      if r.score ≤ 0 then .error "pool has non-positive score"
      else
        match validatePools rest m with
        | .error e => .error e
        | .ok tail => .ok ((id, r.score) :: tail)

/-- Final assignment sweep of DetermineTargetAllocations: locked value if
locked, else the last tentative allocation. -/
def assignFinal (ids : List PoolID) (st : AllocState) :
    Except String (List (PoolID × ℚ)) :=
  match ids with
  | [] => .ok []
  | id :: rest =>
    match lookupID st.locked id with
    | some v =>
      match assignFinal rest st with
      | .error e => .error e
      | .ok tail => .ok ((id, v) :: tail)
    | none =>
      match lookupID st.allocations id with
      | some v =>
        match assignFinal rest st with
        | .error e => .error e
        | .ok tail => .ok ((id, v) :: tail)
      | none => .error "allocation not found for pool"

/-- Final per-pool constraint validation of DetermineTargetAllocations
(tolerance 1/100000 on both sides; the ELYS pool is checked against the
forced minimum). -/
def finalCheck (allocs : List (PoolID × ℚ)) (params : ScoringParameters)
    (elysPoolID : PoolID) : Except String Unit :=
  match allocs with
  | [] => .ok ()
  | (id, a) :: rest =>
    if a < effectiveMin params elysPoolID id - 1/100000 ∨
        params.maxAllocation + 1/100000 < a then
      .error "final allocation violates constraints"
    else finalCheck rest params elysPoolID

/-- Final assignment, sum validation, normalization and constraint recheck
of DetermineTargetAllocations (the code after the constraint-enforcement
loop, factored out). -/
def allocAssignAndValidate (selectedPoolIDs : List PoolID)
    (params : ScoringParameters) (elysPoolID : PoolID) (stF : AllocState) :
    Except String (List (PoolID × ℚ)) :=
  match assignFinal selectedPoolIDs stF with
  | .error e => .error e
  | .ok targetAllocations =>
    let finalSum := sumValues targetAllocations
    if 1/1000 < mathAbs (finalSum - 1) then
      .error "final allocation sum deviates significantly from 1.0"
    else if 0 < finalSum then
      let normalized := targetAllocations.map (fun p => (p.1, p.2 * (1 / finalSum)))
      match finalCheck normalized params elysPoolID with
      | .error e => .error e
      | .ok _ => .ok normalized
    else .error "final allocation sum is zero"

/-- Embedding of analyzer.DetermineTargetAllocations (forced-asset variant,
src/internal/analyzer/SelectTopPools.go).  Maps are association lists; the
Go map of final allocations equals the produced list when the selected ids
are distinct (the theorems assume distinctness where it matters). -/
def DetermineTargetAllocations (selectedPoolIDs : List PoolID)
    (scoredPoolsMap : List (PoolID × PoolScoreResult))
    (params : ScoringParameters) (elysPoolID : PoolID) :
    Except String (List (PoolID × ℚ)) :=
  if selectedPoolIDs.length = 0 then .ok []
  else if params.minAllocation < 0 then .error "MinAllocation cannot be negative"
  else if params.maxAllocation ≤ 0 then .error "MaxAllocation must be positive"
  else if params.maxAllocation < params.minAllocation then
    .error "MinAllocation cannot be greater than MaxAllocation"
  else if params.elysForcedAllocationMinimum < 0 ∨ 1 < params.elysForcedAllocationMinimum then
    .error "ElysForcedAllocationMinimum must be between 0 and 1"
  else
    let numSelected := selectedPoolIDs.length
    let minTotalRequired :=
      if selectedPoolIDs.contains elysPoolID ∧ elysPoolID ≠ 0 then
        params.elysForcedAllocationMinimum + ((numSelected : ℚ) - 1) * params.minAllocation
      else (numSelected : ℚ) * params.minAllocation
    if 1 + 1/100000 < minTotalRequired then
      .error "minimum allocation constraints cannot be satisfied"
    else if params.maxAllocation < 1 / (numSelected : ℚ) then
      .error "equal distribution violates MaxAllocation constraint"
    else
      match validatePools selectedPoolIDs scoredPoolsMap with
      | .error e => .error e
      | .ok validPools =>
        let totalScore := sumValues validPools
        if totalScore ≤ 0 then .error "total score of selected pools is non-positive"
        else
          match allocLoop params elysPoolID maxAllocationIterations
              ⟨[], validPools, validPools.map (fun p => (p.1, p.2 / totalScore))⟩ with
          | .error e => .error e
          | .ok (stF, mc) =>
            if mc then .error "allocation constraint enforcement failed to converge"
            else allocAssignAndValidate selectedPoolIDs params elysPoolID stF

end analyzer

/-- C10: with an empty list of selected pool ids, DetermineTargetAllocations
returns an empty allocation map and no error, for every scoring-parameters
value, score map and forced pool id, before any constraint validation. -/
theorem allocations_empty_selection (scoredPoolsMap : List (types.PoolID × types.PoolScoreResult))
    (params : types.ScoringParameters) (elysPoolID : types.PoolID) :
    analyzer.DetermineTargetAllocations [] scoredPoolsMap params elysPoolID = .ok [] := by
  rfl

namespace analyzer

theorem finalCheck_ok_bounds (params : types.ScoringParameters) (elysPoolID : types.PoolID) :
    ∀ (l : List (types.PoolID × ℚ)) (u : Unit), finalCheck l params elysPoolID = .ok u →
    ∀ p ∈ l, effectiveMin params elysPoolID p.1 - 1/100000 ≤ p.2 ∧
      p.2 ≤ params.maxAllocation + 1/100000 := by
  intro l
  induction l with
  | nil => intro u _ p hp; exact absurd hp (List.not_mem_nil p)
  | cons hd tl ih =>
    intro u h p hp
    rw [finalCheck] at h
    by_cases hc : hd.2 < effectiveMin params elysPoolID hd.1 - 1/100000 ∨
        params.maxAllocation + 1/100000 < hd.2
    · rw [if_pos hc] at h
      exact absurd h (by simp)
    · rw [if_neg hc] at h
      push_neg at hc
      rcases List.mem_cons.mp hp with rfl | hmem
      · exact ⟨hc.1, le_of_not_lt (fun hlt => absurd hlt (not_lt.mpr hc.2))⟩
      · exact ih u h p hmem

theorem sumValues_map_scale (l : List (types.PoolID × ℚ)) (c : ℚ) :
    sumValues (l.map (fun p => (p.1, p.2 * c))) = sumValues l * c := by
  induction l with
  | nil => simp [sumValues]
  | cons hd tl ih =>
    simp only [sumValues, List.map_cons, List.sum_cons] at *
    rw [ih]
    ring

theorem assignFinal_keys (st : AllocState) :
    ∀ (ids : List types.PoolID) (l : List (types.PoolID × ℚ)),
    assignFinal ids st = .ok l → l.map (·.1) = ids := by
  intro ids
  induction ids with
  | nil =>
    intro l h
    rw [assignFinal] at h
    cases h
    rfl
  | cons hd tl ih =>
    intro l h
    rw [assignFinal] at h
    cases hlk : lookupID st.locked hd with
    | some v =>
      rw [hlk] at h
      cases htl : assignFinal tl st with
      | error e => rw [htl] at h; exact absurd h (by simp)
      | ok tail =>
        rw [htl] at h
        cases h
        simp [ih tail htl]
    | none =>
      rw [hlk] at h
      cases halloc : lookupID st.allocations hd with
      | some v =>
        rw [halloc] at h
        cases htl : assignFinal tl st with
        | error e => rw [htl] at h; exact absurd h (by simp)
        | ok tail =>
          rw [htl] at h
          cases h
          simp [ih tail htl]
      | none => rw [halloc] at h; exact absurd h (by simp)

end analyzer

/-- C3 counterexample: three pools with scores 10000000, 1, 1 under
min_alloc = 1/100000, max_alloc = 99999/100000 and no forced pool.  All
three pools lock in the first iteration (one at the maximum, two at the
minimum), the locked values sum to 1 + 1/100000, and the normalization step
scales the two minimum-locked pools down to 1/100001, strictly below
min_alloc = 1/100000, yet the run returns without error: the returned
allocation does not lie in [effective_min, max_alloc]. -/
theorem allocator_below_min_counterexample :
    analyzer.DetermineTargetAllocations [1, 2, 3]
      [(1, ⟨1, 10000000⟩), (2, ⟨2, 1⟩), (3, ⟨3, 1⟩)]
      { maxPools := 5, minAllocation := 1/100000, maxAllocation := 99999/100000,
        rebalanceThresholdAmount := 0, maxRebalancePercentPerCycle := 0,
        minLiquidUSDCBuffer := 0, smartShieldSlippagePercent := 0,
        normalPoolSlippagePercent := 0, viableSwapReductionFactor := 1,
        viableDepositReductionFactor := 1, elysForcedAllocationMinimum := 0 } 0 =
      .ok [(1, 99999/100001), (2, 1/100001), (3, 1/100001)] ∧
    (1/100001 : ℚ) < 1/100000 := by
  refine ⟨?_, by norm_num⟩
  have h1 : analyzer.allocIter
      { maxPools := 5, minAllocation := 1/100000, maxAllocation := 99999/100000,
        rebalanceThresholdAmount := 0, maxRebalancePercentPerCycle := 0,
        minLiquidUSDCBuffer := 0, smartShieldSlippagePercent := 0,
        normalPoolSlippagePercent := 0, viableSwapReductionFactor := 1,
        viableDepositReductionFactor := 1, elysForcedAllocationMinimum := 0 } 0
      ⟨[], [(1, 10000000), (2, 1), (3, 1)],
        [(1, 5000000/5000001), (2, 1/10000002), (3, 1/10000002)]⟩ =
      .ok (⟨[(1, 99999/100000), (2, 1/100000), (3, 1/100000)], [],
        [(1, 5000000/5000001), (2, 1/10000002), (3, 1/10000002)]⟩, true, false) := by
    norm_num [analyzer.allocIter, analyzer.sumValues, analyzer.upsert,
      analyzer.effectiveMin, List.foldl_cons, List.foldl_nil, List.filter, List.any]
  have h2 : analyzer.allocIter
      { maxPools := 5, minAllocation := 1/100000, maxAllocation := 99999/100000,
        rebalanceThresholdAmount := 0, maxRebalancePercentPerCycle := 0,
        minLiquidUSDCBuffer := 0, smartShieldSlippagePercent := 0,
        normalPoolSlippagePercent := 0, viableSwapReductionFactor := 1,
        viableDepositReductionFactor := 1, elysForcedAllocationMinimum := 0 } 0
      ⟨[(1, 99999/100000), (2, 1/100000), (3, 1/100000)], [],
        [(1, 5000000/5000001), (2, 1/10000002), (3, 1/10000002)]⟩ =
      .ok (⟨[(1, 99999/100000), (2, 1/100000), (3, 1/100000)], [],
        [(1, 5000000/5000001), (2, 1/10000002), (3, 1/10000002)]⟩, false, true) := by
    norm_num [analyzer.allocIter, analyzer.sumValues]
  norm_num +decide [analyzer.DetermineTargetAllocations, analyzer.allocAssignAndValidate,
    analyzer.validatePools, analyzer.maxAllocationIterations, analyzer.allocLoop, h1, h2,
    analyzer.assignFinal, analyzer.finalCheck, analyzer.sumValues,
    analyzer.effectiveMin, AVM.mathAbs, AVM.lookupID]

set_option maxHeartbeats 2000000 in
/-- C3 (amended): every allocation map returned without error by
DetermineTargetAllocations on a nonempty selection with distinct ids sums to
exactly 1 (hence within 10^-6); each allocation lies within the tolerant
bounds [effective_min - 10^-5, max_alloc + 10^-5], where effective_min is
the forced minimum for the forced pool and min_alloc otherwise (the strict
bounds of the original claim can be violated by up to 10^-5 after
normalization, see the counterexample); and the forced pool, when present in
the selection, receives at least forced_min - 10^-5. -/
theorem allocator_output_invariants (selectedPoolIDs : List types.PoolID)
    (scoredPoolsMap : List (types.PoolID × types.PoolScoreResult))
    (params : types.ScoringParameters) (elysPoolID : types.PoolID)
    (out : List (types.PoolID × ℚ))
    (h : analyzer.DetermineTargetAllocations selectedPoolIDs scoredPoolsMap params
      elysPoolID = .ok out)
    (hne : selectedPoolIDs ≠ []) (hnd : selectedPoolIDs.Nodup) :
    analyzer.sumValues out = 1 ∧
    (∀ p ∈ out, analyzer.effectiveMin params elysPoolID p.1 - 1/100000 ≤ p.2 ∧
      p.2 ≤ params.maxAllocation + 1/100000) ∧
    (elysPoolID ∈ selectedPoolIDs → elysPoolID ≠ 0 →
      ∃ a, (elysPoolID, a) ∈ out ∧ params.elysForcedAllocationMinimum - 1/100000 ≤ a) := by
  have core : ∀ stF : analyzer.AllocState,
      analyzer.allocAssignAndValidate selectedPoolIDs params elysPoolID stF = .ok out →
      analyzer.sumValues out = 1 ∧
      (∀ p ∈ out, analyzer.effectiveMin params elysPoolID p.1 - 1/100000 ≤ p.2 ∧
        p.2 ≤ params.maxAllocation + 1/100000) ∧
      (elysPoolID ∈ selectedPoolIDs → elysPoolID ≠ 0 →
        ∃ a, (elysPoolID, a) ∈ out ∧ params.elysForcedAllocationMinimum - 1/100000 ≤ a) := by
    intro stF h
    rw [analyzer.allocAssignAndValidate] at h
    dsimp only at h
    split at h
    case _ e heq3 => exact absurd h (by simp)
    case _ targetAllocations heq3 =>
    split at h
    · exact absurd h (by simp)
    split at h
    case _ hpos =>
      split at h
      case _ e heq4 => exact absurd h (by simp)
      case _ u heq4 =>
      have hout : out = targetAllocations.map
          (fun p => (p.1, p.2 * (1 / analyzer.sumValues targetAllocations))) := by
        cases h; rfl
      have hkeys : targetAllocations.map (·.1) = selectedPoolIDs :=
        analyzer.assignFinal_keys stF selectedPoolIDs targetAllocations heq3
      have hsumne : analyzer.sumValues targetAllocations ≠ 0 := ne_of_gt hpos
      refine ⟨?_, ?_, ?_⟩
      · rw [hout, analyzer.sumValues_map_scale]
        field_simp
      · intro p hp
        exact analyzer.finalCheck_ok_bounds params elysPoolID _ u heq4 p (hout ▸ hp)
      · intro helys helys0
        have hmem : elysPoolID ∈ out.map (·.1) := by
          rw [hout, List.map_map]
          have : (fun p : types.PoolID × ℚ => p.1) ∘
              (fun p : types.PoolID × ℚ =>
                (p.1, p.2 * (1 / analyzer.sumValues targetAllocations))) =
              (fun p : types.PoolID × ℚ => p.1) := by
            funext p; rfl
          rw [this, hkeys]
          exact helys
        obtain ⟨p, hpmem, hpfst⟩ := List.mem_map.mp hmem
        have hb := analyzer.finalCheck_ok_bounds params elysPoolID _ u heq4 p (hout ▸ hpmem)
        refine ⟨p.2, ?_, ?_⟩
        · have : p = (elysPoolID, p.2) := by
            cases p; simp_all
          rw [← this]; exact hpmem
        · have : analyzer.effectiveMin params elysPoolID p.1 =
              params.elysForcedAllocationMinimum := by
            rw [analyzer.effectiveMin, if_pos ⟨hpfst, helys0⟩]
          rw [← this]
          exact hb.1
    case _ hpos => exact absurd h (by simp)
  rw [analyzer.DetermineTargetAllocations] at h
  rw [if_neg (by simpa [List.length_eq_zero] using hne)] at h
  repeat'
    first
    | exact core _ h
    | split at h
    | dsimp only at h
    | exact absurd h (by simp)

/-- Witness for C3 amended theorem: two pools with scores 3 and 1,
min_alloc 1/10, max_alloc 9/10, forced pool 2 with forced minimum 1/2; the
allocator locks pool 2 at the forced minimum and gives pool 1 the rest. -/
theorem allocator_output_invariants_witness :
    analyzer.sumValues [(1, (1:ℚ)/2), (2, 1/2)] = 1 ∧
    (∀ p ∈ [((1:ℕ), (1:ℚ)/2), (2, 1/2)],
      analyzer.effectiveMin
        { maxPools := 5, minAllocation := 1/10, maxAllocation := 9/10,
          rebalanceThresholdAmount := 0, maxRebalancePercentPerCycle := 0,
          minLiquidUSDCBuffer := 0, smartShieldSlippagePercent := 0,
          normalPoolSlippagePercent := 0, viableSwapReductionFactor := 1,
          viableDepositReductionFactor := 1, elysForcedAllocationMinimum := 1/2 } 2 p.1
        - 1/100000 ≤ p.2 ∧
      p.2 ≤ (9:ℚ)/10 + 1/100000) ∧
    ((2:ℕ) ∈ [(1:ℕ), 2] → (2:ℕ) ≠ 0 →
      ∃ a, ((2:ℕ), a) ∈ [((1:ℕ), (1:ℚ)/2), (2, 1/2)] ∧ (1:ℚ)/2 - 1/100000 ≤ a) := by
  have h1 : analyzer.allocIter
      { maxPools := 5, minAllocation := 1/10, maxAllocation := 9/10,
        rebalanceThresholdAmount := 0, maxRebalancePercentPerCycle := 0,
        minLiquidUSDCBuffer := 0, smartShieldSlippagePercent := 0,
        normalPoolSlippagePercent := 0, viableSwapReductionFactor := 1,
        viableDepositReductionFactor := 1, elysForcedAllocationMinimum := 1/2 } 2
      ⟨[], [(1, 3), (2, 1)], [(1, 3/4), (2, 1/4)]⟩ =
      .ok (⟨[(2, 1/2)], [(1, 3)], [(1, 3/4), (2, 1/4)]⟩, true, false) := by
    norm_num [analyzer.allocIter, analyzer.sumValues, analyzer.upsert,
      analyzer.effectiveMin, List.foldl_cons, List.foldl_nil, List.filter, List.any]
  have h2 : analyzer.allocIter
      { maxPools := 5, minAllocation := 1/10, maxAllocation := 9/10,
        rebalanceThresholdAmount := 0, maxRebalancePercentPerCycle := 0,
        minLiquidUSDCBuffer := 0, smartShieldSlippagePercent := 0,
        normalPoolSlippagePercent := 0, viableSwapReductionFactor := 1,
        viableDepositReductionFactor := 1, elysForcedAllocationMinimum := 1/2 } 2
      ⟨[(2, 1/2)], [(1, 3)], [(1, 3/4), (2, 1/4)]⟩ =
      .ok (⟨[(2, 1/2)], [(1, 3)], [(1, 1/2), (2, 1/4)]⟩, false, false) := by
    norm_num [analyzer.allocIter, analyzer.sumValues, analyzer.upsert,
      analyzer.effectiveMin, List.foldl_cons, List.foldl_nil, List.filter, List.any]
  have hrun : analyzer.DetermineTargetAllocations [1, 2]
      [(1, ⟨1, 3⟩), (2, ⟨2, 1⟩)]
      { maxPools := 5, minAllocation := 1/10, maxAllocation := 9/10,
        rebalanceThresholdAmount := 0, maxRebalancePercentPerCycle := 0,
        minLiquidUSDCBuffer := 0, smartShieldSlippagePercent := 0,
        normalPoolSlippagePercent := 0, viableSwapReductionFactor := 1,
        viableDepositReductionFactor := 1, elysForcedAllocationMinimum := 1/2 } 2 =
      .ok [(1, 1/2), (2, 1/2)] := by
    norm_num +decide [analyzer.DetermineTargetAllocations, analyzer.allocAssignAndValidate,
      analyzer.validatePools, analyzer.maxAllocationIterations, analyzer.allocLoop, h1, h2,
      analyzer.assignFinal, analyzer.finalCheck, analyzer.sumValues,
      analyzer.effectiveMin, AVM.mathAbs, AVM.lookupID]
  exact allocator_output_invariants [1, 2] [(1, ⟨1, 3⟩), (2, ⟨2, 1⟩)] _ 2
    [(1, 1/2), (2, 1/2)] hrun (by simp) (by simp)

namespace analyzer

open types

/-- Whether a scored pool is a forced-asset candidate: its pool data is
present and one of its token denoms is uelys (mirrors the condition of the
scan in SelectTopPools). -/
def isElysCandidate (poolsDataMap : List (PoolID × Pool)) (ps : PoolScoreResult) : Bool :=
  match lookupID poolsDataMap ps.poolID with
  | some poolData => decide (poolData.tokenA.denom = "uelys" ∨ poolData.tokenB.denom = "uelys")
  | none => false

/-- The forced-asset candidates of the input, in input order. -/
def elysCandidates (scoredPools : List PoolScoreResult)
    (poolsDataMap : List (PoolID × Pool)) : List PoolScoreResult :=
  scoredPools.filter (isElysCandidate poolsDataMap)

theorem inj_of_nodup_ids (S : List PoolScoreResult)
    (hnd : (S.map (·.poolID)).Nodup) :
    ∀ a ∈ S, ∀ b ∈ S, a.poolID = b.poolID → a = b := by
  intro a ha b hb hab
  exact List.inj_on_of_nodup_map hnd ha hb hab

theorem elysScan_fold (S : List PoolScoreResult) (M : List (PoolID × Pool))
    (hnd : (S.map (·.poolID)).Nodup) :
    ∀ (l seen : List PoolScoreResult) (acc : Option PoolID),
    S = seen ++ l →
    ((acc = none ↔ elysCandidates seen M = []) ∧
      (∀ b, acc = some b → ∃ c ∈ elysCandidates seen M, c.poolID = b ∧
        ∀ d ∈ elysCandidates seen M, d.score ≤ c.score)) →
    (l.foldl (elysStep S M) acc = none ↔ elysCandidates (seen ++ l) M = []) ∧
      (∀ b, l.foldl (elysStep S M) acc = some b →
        ∃ c ∈ elysCandidates (seen ++ l) M, c.poolID = b ∧
        ∀ d ∈ elysCandidates (seen ++ l) M, d.score ≤ c.score) := by
  intro l
  induction l with
  | nil =>
    intro seen acc _ hInv
    simpa using hInv
  | cons x xs ih =>
    intro seen acc hS hInv
    have hstep : ((elysStep S M acc x) = none ↔ elysCandidates (seen ++ [x]) M = []) ∧
        (∀ b, (elysStep S M acc x) = some b →
          ∃ c ∈ elysCandidates (seen ++ [x]) M, c.poolID = b ∧
          ∀ d ∈ elysCandidates (seen ++ [x]) M, d.score ≤ c.score) := by
      rw [elysStep.eq_def]
      cases hlk : lookupID M x.poolID with
      | none =>
        dsimp only
        have hcand : elysCandidates (seen ++ [x]) M = elysCandidates seen M := by
          simp [elysCandidates, List.filter_append, isElysCandidate, hlk]
        rw [hcand]
        exact hInv
      | some pd =>
        dsimp only
        by_cases hde : pd.tokenA.denom = "uelys" ∨ pd.tokenB.denom = "uelys"
        · rw [if_pos hde]
          have hcand : elysCandidates (seen ++ [x]) M = elysCandidates seen M ++ [x] := by
            simp [elysCandidates, List.filter_append, isElysCandidate, hlk, hde]
          rw [hcand]
          cases acc with
          | none =>
            dsimp only
            have hempty : elysCandidates seen M = [] := hInv.1.mp rfl
            rw [hempty]
            constructor
            · simp
            · intro b hb
              simp only [Option.some_inj] at hb
              refine ⟨x, by simp, hb, ?_⟩
              intro d hd
              simp only [List.nil_append, List.mem_singleton] at hd
              rw [hd]
          | some best =>
            dsimp only
            obtain ⟨c, hcmem, hcid, hcmax⟩ := hInv.2 best rfl
            have hcS : c ∈ S := by
              rw [hS]
              exact List.mem_append.mpr (Or.inl (List.mem_of_mem_filter hcmem))
            have hany : (S.any fun e => decide (e.poolID = best ∧ e.score < x.score)) = true ↔
                c.score < x.score := by
              constructor
              · intro ha
                obtain ⟨e, heS, he⟩ := List.any_eq_true.mp ha
                rw [decide_eq_true_iff] at he
                have : e = c := inj_of_nodup_ids S hnd e heS c hcS (by rw [he.1, hcid])
                rw [← this]
                exact he.2
              · intro hlt
                exact List.any_eq_true.mpr ⟨c, hcS, by rw [decide_eq_true_iff]; exact ⟨hcid, hlt⟩⟩
            by_cases hcond : c.score < x.score
            · rw [if_pos (by rw [hany]; exact hcond)]
              constructor
              · simp
              · intro b hb
                simp only [Option.some_inj] at hb
                refine ⟨x, by simp, hb, ?_⟩
                intro d hd
                rcases List.mem_append.mp hd with hd | hd
                · exact le_of_lt (lt_of_le_of_lt (hcmax d hd) hcond)
                · simp only [List.mem_singleton] at hd
                  rw [hd]
            · rw [if_neg (by rw [hany]; exact hcond)]
              constructor
              · simp
              · intro b hb
                simp only [Option.some_inj] at hb
                refine ⟨c, List.mem_append.mpr (Or.inl hcmem), by rw [← hb]; exact hcid, ?_⟩
                intro d hd
                rcases List.mem_append.mp hd with hd | hd
                · exact hcmax d hd
                · simp only [List.mem_singleton] at hd
                  rw [hd]
                  exact le_of_not_lt hcond
        · rw [if_neg hde]
          have hcand : elysCandidates (seen ++ [x]) M = elysCandidates seen M := by
            simp [elysCandidates, List.filter_append, isElysCandidate, hlk, hde]
          rw [hcand]
          exact hInv
    have hS2 : S = (seen ++ [x]) ++ xs := by
      rw [hS]; simp
    have := ih (seen ++ [x]) (elysStep S M acc x) hS2 hstep
    simpa [List.append_assoc] using this

theorem elysScan_spec (S : List PoolScoreResult) (M : List (PoolID × Pool))
    (hnd : (S.map (·.poolID)).Nodup) :
    (elysScan S M = none ↔ elysCandidates S M = []) ∧
    (∀ b, elysScan S M = some b → ∃ c ∈ elysCandidates S M, c.poolID = b ∧
      ∀ d ∈ elysCandidates S M, d.score ≤ c.score) := by
  have := elysScan_fold S M hnd S [] none (by simp)
    (by constructor
        · simp [elysCandidates]
        · intro b hb; exact absurd hb (by simp))
  simpa [elysScan] using this

theorem topPools_sorted (S : List PoolScoreResult) (params : ScoringParameters) :
    List.Sorted scoreDescRel (topPools S params) := by
  unfold topPools
  exact (List.sorted_insertionSort scoreDescRel S).sublist (List.take_sublist _ _)

theorem sorted_getLast_min (l : List PoolScoreResult)
    (hs : List.Sorted scoreDescRel l) (hne : l ≠ []) :
    ∀ x ∈ l, (l.getLast hne).score ≤ x.score := by
  induction l with
  | nil => exact absurd rfl hne
  | cons a t ih =>
    intro x hx
    cases t with
    | nil =>
      simp only [List.mem_singleton] at hx
      rw [hx, List.getLast_singleton]
    | cons b t2 =>
      rw [List.getLast_cons (by simp)]
      rcases List.mem_cons.mp hx with rfl | hx2
      · have hmem : (b :: t2).getLast (by simp) ∈ b :: t2 := List.getLast_mem _
        exact (List.sorted_cons.mp hs).1 _ hmem
      · exact ih (List.sorted_cons.mp hs).2 (by simp) x hx2

end analyzer

/-- C4: on inputs with distinct pool ids, SelectTopPools returns as forced
pool a highest-scoring pool whose token set contains the forced asset
(denom uelys); the forced pool is always a member of the selection; when it
already lies in the top MaxPools by score the selection is exactly that top
list, otherwise the lowest-scoring member of the top list is evicted
(dropped from the end of the descending sort) and the forced pool appended;
when no pool contains the forced asset the selection is the top list with
forced pool id 0.  The last element of the top list has minimal score within
it, so the evicted member is a lowest-scoring one. -/
theorem select_top_pools_forced_inclusion (scoredPools : List types.PoolScoreResult)
    (params : types.ScoringParameters) (poolsDataMap : List (types.PoolID × types.Pool))
    (sel : List types.PoolID) (forced : types.PoolID)
    (h : analyzer.SelectTopPools scoredPools params poolsDataMap = .ok (sel, forced))
    (hnd : (scoredPools.map (·.poolID)).Nodup) :
    (analyzer.elysCandidates scoredPools poolsDataMap = [] →
      forced = 0 ∧ sel = analyzer.topPoolIDs scoredPools params) ∧
    (analyzer.elysCandidates scoredPools poolsDataMap ≠ [] →
      (∃ c ∈ analyzer.elysCandidates scoredPools poolsDataMap, c.poolID = forced ∧
        ∀ d ∈ analyzer.elysCandidates scoredPools poolsDataMap, d.score ≤ c.score) ∧
      forced ∈ sel ∧
      (forced ∈ analyzer.topPoolIDs scoredPools params →
        sel = analyzer.topPoolIDs scoredPools params) ∧
      (forced ∉ analyzer.topPoolIDs scoredPools params →
        sel = (analyzer.topPoolIDs scoredPools params).dropLast ++ [forced])) ∧
    (∀ hne : analyzer.topPools scoredPools params ≠ [],
      ∀ x ∈ analyzer.topPools scoredPools params,
        ((analyzer.topPools scoredPools params).getLast hne).score ≤ x.score) := by
  have hspec := analyzer.elysScan_spec scoredPools poolsDataMap hnd
  rw [analyzer.SelectTopPools] at h
  split at h
  · exact absurd h (by simp)
  split at h
  · exact absurd h (by simp)
  refine ?_
  split at h
  case _ elysID heq =>
    dsimp only at h
    split at h
    case _ hcont =>
      have hinj : sel = analyzer.topPoolIDs scoredPools params ∧ forced = elysID := by
        have := h
        simp only [Except.ok.injEq, Prod.mk.injEq] at this
        exact ⟨this.1.symm, this.2.symm⟩
      obtain ⟨hsel, hforced⟩ := hinj
      refine ⟨?_, ?_, fun hne x hx => analyzer.sorted_getLast_min _
        (analyzer.topPools_sorted scoredPools params) hne x hx⟩
      · intro hempty
        exact absurd heq (by rw [hspec.1.mpr hempty]; simp)
      · intro _
        obtain ⟨c, hcmem, hcid, hcmax⟩ := hspec.2 elysID heq
        refine ⟨⟨c, hcmem, by rw [hforced]; exact hcid, hcmax⟩, ?_, ?_, ?_⟩
        · rw [hsel, hforced]
          exact List.mem_of_elem_eq_true hcont
        · intro _; exact hsel
        · intro hnot
          rw [hforced] at hnot
          exact absurd (List.mem_of_elem_eq_true hcont) hnot
    case _ hcont =>
      have hinj : sel = (analyzer.topPoolIDs scoredPools params).dropLast ++ [elysID] ∧
          forced = elysID := by
        have := h
        simp only [Except.ok.injEq, Prod.mk.injEq] at this
        exact ⟨this.1.symm, this.2.symm⟩
      obtain ⟨hsel, hforced⟩ := hinj
      refine ⟨?_, ?_, fun hne x hx => analyzer.sorted_getLast_min _
        (analyzer.topPools_sorted scoredPools params) hne x hx⟩
      · intro hempty
        exact absurd heq (by rw [hspec.1.mpr hempty]; simp)
      · intro _
        obtain ⟨c, hcmem, hcid, hcmax⟩ := hspec.2 elysID heq
        refine ⟨⟨c, hcmem, by rw [hforced]; exact hcid, hcmax⟩, ?_, ?_, ?_⟩
        · rw [hsel, hforced]
          simp
        · intro hmem
          rw [hforced] at hmem
          exact absurd (List.elem_eq_true_of_mem hmem) hcont
        · intro _
          rw [hsel, hforced]
  case _ heq =>
    have hinj : sel = analyzer.topPoolIDs scoredPools params ∧ forced = 0 := by
      have := h
      simp only [Except.ok.injEq, Prod.mk.injEq] at this
      exact ⟨this.1.symm, this.2.symm⟩
    obtain ⟨hsel, hforced⟩ := hinj
    refine ⟨fun _ => ⟨hforced, hsel⟩, ?_, fun hne x hx => analyzer.sorted_getLast_min _
      (analyzer.topPools_sorted scoredPools params) hne x hx⟩
    intro hnonempty
    exact absurd (hspec.1.mp heq) hnonempty

/-- Fixture for the C4 witness: two pools, pool 2 holds the uelys denom. -/
def selectorWitnessMap : List (types.PoolID × types.Pool) :=
  [(1, ⟨1, ⟨"ATOM", "uatom", "ibc/atom", 6, 10⟩, ⟨"USDC", "uusdc", "ibc/usdc", 6, 1⟩,
      1000, false, 100⟩),
   (2, ⟨2, ⟨"ELYS", "uelys", "ibc/elys", 6, 1⟩, ⟨"USDC", "uusdc", "ibc/usdc", 6, 1⟩,
      500, false, 100⟩)]

/-- Fixture for the C4 witness: MaxPools 1, so the uelys pool (rank 2) must
evict the top pool. -/
def selectorWitnessParams : types.ScoringParameters :=
  { maxPools := 1, minAllocation := 0, maxAllocation := 1,
    rebalanceThresholdAmount := 0, maxRebalancePercentPerCycle := 0,
    minLiquidUSDCBuffer := 0, smartShieldSlippagePercent := 0,
    normalPoolSlippagePercent := 0, viableSwapReductionFactor := 1,
    viableDepositReductionFactor := 1, elysForcedAllocationMinimum := 0 }

/-- Witness for C4: on the two-pool fixture the selection is ([2], 2), the
forced pool 2 is the highest-scoring (only) uelys candidate, is a member of
the selection, and replaces the evicted lowest-scoring member of the top
list. -/
theorem select_top_pools_forced_inclusion_witness :
    (∃ c ∈ analyzer.elysCandidates [⟨1, 10⟩, ⟨2, 5⟩] selectorWitnessMap,
      c.poolID = 2 ∧ ∀ d ∈ analyzer.elysCandidates [⟨1, 10⟩, ⟨2, 5⟩] selectorWitnessMap,
        d.score ≤ c.score) ∧
    (2:ℕ) ∈ ([2] : List types.PoolID) ∧
    (((2:ℕ) ∉ analyzer.topPoolIDs [⟨1, 10⟩, ⟨2, 5⟩] selectorWitnessParams) →
      ([2] : List types.PoolID) =
        (analyzer.topPoolIDs [⟨1, 10⟩, ⟨2, 5⟩] selectorWitnessParams).dropLast ++ [2]) := by
  have hrun : analyzer.SelectTopPools [⟨1, 10⟩, ⟨2, 5⟩] selectorWitnessParams
      selectorWitnessMap = .ok ([2], 2) := by
    norm_num +decide [analyzer.SelectTopPools, analyzer.topPoolIDs, analyzer.topPools,
      analyzer.elysScan, analyzer.elysStep, AVM.lookupID, List.insertionSort,
      List.orderedInsert, analyzer.scoreDescRel, selectorWitnessParams, selectorWitnessMap]
  have hcand : analyzer.elysCandidates [⟨1, 10⟩, ⟨2, 5⟩] selectorWitnessMap = [⟨2, 5⟩] := by
    norm_num +decide [analyzer.elysCandidates, analyzer.isElysCandidate, AVM.lookupID,
      selectorWitnessMap, List.filter]
  have h := select_top_pools_forced_inclusion [⟨1, 10⟩, ⟨2, 5⟩] selectorWitnessParams
    selectorWitnessMap [2] 2 hrun (by simp)
  have hne : analyzer.elysCandidates [⟨1, 10⟩, ⟨2, 5⟩] selectorWitnessMap ≠ [] := by
    rw [hcand]; simp
  obtain ⟨hmax, hmem, _, hevict⟩ := h.2.1 hne
  exact ⟨hmax, hmem, hevict⟩

end AVM

namespace AVM

/-- Truncation toward zero of a rational to an integer, modeling the
LegacyDec TruncateInt operation (which equals the floor on nonnegative
values). -/
def truncateInt (q : ℚ) : ℤ := Int.tdiv q.num q.den

theorem truncateInt_eq_floor (q : ℚ) (hq : 0 ≤ q) : truncateInt q = ⌊q⌋ := by
  unfold truncateInt
  have hnum : 0 ≤ q.num := Rat.num_nonneg.mpr hq
  rw [Int.tdiv_eq_ediv hnum (by positivity), Rat.floor_def]

namespace planner

open types

/-- High-level action with metadata (planner.ExtendedAction). -/
structure ExtendedAction where
  poolID : PoolID
  deltaUSD : ℚ
  targetLPShares : ℤ
deriving DecidableEq, Repr

/-- Vault LP position (types.Position). -/
structure Position where
  poolID : PoolID
  lpShares : ℤ
  ageDays : ℤ
  estimatedValue : ℚ
deriving DecidableEq, Repr

/-- Exit-pool simulation result (simulations.ExitPoolEstimationResult);
amounts out are (denom, amount) coins. -/
structure ExitPoolEstimationResult where
  amountsOut : List (String × ℤ)
  slippage : ℚ
deriving DecidableEq, Repr

/-- Join-pool simulation result (simulations.JoinPoolEstimationResult). -/
structure JoinPoolEstimationResult where
  shareAmountOut : ℤ
  slippage : ℚ
deriving DecidableEq, Repr

/-- Planner-emitted atomic operation (types.SubAction; the Go struct with a
type tag and optional fields is modeled as a sum). -/
inductive SubAction where
  | swap (tokenInDenom : String) (tokenInAmount : ℤ) (tokenOutDenom : String)
      (expectedTokenOut : ℤ) (expectedSlippage : ℚ) (slippageTolerancePct : ℚ)
  | depositLP (poolIDToDeposit : PoolID) (amountsToDeposit : List (String × ℤ))
      (expectedSharesOut : ℤ) (expectedSlippage : ℚ) (slippageTolerancePct : ℚ)
  | withdrawLP (poolIDToWithdraw : PoolID) (lpSharesToWithdraw : ℤ)
      (targetDenomOnExit : String) (expectedAmountsOut : List (String × ℤ))
      (expectedSlippage : ℚ) (slippageTolerancePct : ℚ)
deriving DecidableEq, Repr

/-- Embedding of planner.findPosition. -/
def findPosition (positions : List Position) (poolID : PoolID) : Option Position :=
  match positions with
  | [] => none
  | pos :: rest => if pos.poolID = poolID then some pos else findPosition rest poolID

/-- Embedding of planner.getSlippageLimit. -/
def getSlippageLimit (pool : Pool) (scoringParams : ScoringParameters) : ℚ :=
  if pool.isSmartShielded then scoringParams.smartShieldSlippagePercent / 100
  else scoringParams.normalPoolSlippagePercent / 100

/-- Formatting a float with the plain %f verb (6 decimal places) and parsing
it as a LegacyDec, as calculateTargetShares does, modeled as round-half-even
to 6 decimal places. -/
def legacyDecRound6 (q : ℚ) : ℚ := (roundHalfEven (q * (10:ℚ) ^ 6) : ℚ) / (10:ℚ) ^ 6

/-- Embedding of planner.calculateTargetShares.  The LegacyDec product of a
6-decimal value and an integer is exact; TruncateInt truncates toward
zero. -/
def calculateTargetShares (targetUSD : ℚ) (poolID : PoolID)
    (poolsData : List (PoolID × Pool)) : Except String ℤ :=
  if targetUSD ≤ 0 then .ok 0
  else
    match lookupID poolsData poolID with
    | none => .error "pool data not found"
    | some poolInfo =>
      if poolInfo.totalShares = 0 then .error "pool has zero total shares"
      else if poolInfo.tvlUSD ≤ 0 then .error "pool has invalid TVL"
      else .ok (truncateInt (legacyDecRound6 (targetUSD / poolInfo.tvlUSD) *
        (poolInfo.totalShares : ℚ)))

/-- The id set iterated by analyzeRequiredChanges: ids of current positions
and of target allocations (a Go map used as a set; iteration order is
random in Go and fixed to first-occurrence order here, which only permutes
the produced action lists, both of which are subsequently sorted). -/
def allPoolIDsOf (currentPositions : List Position)
    (targetAllocations : List (PoolID × ℚ)) : List PoolID :=
  (currentPositions.map (·.poolID) ++ targetAllocations.map (·.1)).eraseDups

/-- Per-pool body of the analyzeRequiredChanges loop, producing the optional
withdrawal or deposit action. -/
def analyzeOnePool (currentPositions : List Position)
    (targetAllocations : List (PoolID × ℚ)) (totalVaultValueUSD : ℚ)
    (poolsData : List (PoolID × Pool)) (scoringParams : ScoringParameters)
    (poolID : PoolID) : Except String (Option (Bool × ExtendedAction)) :=
  let currentUSD := match findPosition currentPositions poolID with
    | some pos => pos.estimatedValue
    | none => 0
  let targetAllocation := (lookupID targetAllocations poolID).getD 0
  let targetUSD := totalVaultValueUSD * targetAllocation
  let deltaUSD := targetUSD - currentUSD
  let deltaPercentage :=
    if 0 < targetUSD then (deltaUSD / targetUSD) * 100
    else if 0 < currentUSD then -100
    else 0
  if deltaPercentage < -scoringParams.rebalanceThresholdAmount then
    match calculateTargetShares targetUSD poolID poolsData with
    | .error e => .error e
    | .ok targetShares => .ok (some (true, ⟨poolID, deltaUSD, targetShares⟩))
  else if scoringParams.rebalanceThresholdAmount < deltaPercentage then
    match calculateTargetShares targetUSD poolID poolsData with
    | .error e => .error e
    | .ok targetShares => .ok (some (false, ⟨poolID, deltaUSD, targetShares⟩))
  else .ok none

/-- Embedding of planner.analyzeRequiredChanges: the loop over the union of
position and target pool ids, collecting withdrawals (flag true) and
deposits (flag false). -/
def analyzeRequiredChanges (currentPositions : List Position)
    (targetAllocations : List (PoolID × ℚ)) (totalVaultValueUSD : ℚ)
    (poolsData : List (PoolID × Pool)) (scoringParams : ScoringParameters) :
    Except String (List ExtendedAction × List ExtendedAction) :=
  go (allPoolIDsOf currentPositions targetAllocations)
where
  go : List PoolID → Except String (List ExtendedAction × List ExtendedAction)
    | [] => .ok ([], [])
    | id :: rest =>
      match analyzeOnePool currentPositions targetAllocations totalVaultValueUSD
          poolsData scoringParams id with
      | .error e => .error e
      | .ok res =>
        match go rest with
        | .error e => .error e
        | .ok (ws, ds) =>
          match res with
          | some (true, a) => .ok (a :: ws, ds)
          | some (false, a) => .ok (ws, a :: ds)
          | none => .ok (ws, ds)

/-- Embedding of planner.applyRebalancingLimits: caps the total withdrawal
USD per cycle by scaling each DeltaUSD; TargetLPShares is copied unchanged
(the comment in the code says it will be recalculated from the scaled
DeltaUSD, but nothing does). -/
def applyRebalancingLimits (withdrawals deposits : List ExtendedAction)
    (totalVaultValueUSD : ℚ) (scoringParams : ScoringParameters) :
    List ExtendedAction × List ExtendedAction :=
  let maxWithdrawalUSD := totalVaultValueUSD * (scoringParams.maxRebalancePercentPerCycle / 100)
  let totalWithdrawalUSD := (withdrawals.map (fun w => mathAbs w.deltaUSD)).sum
  if totalWithdrawalUSD ≤ maxWithdrawalUSD then (withdrawals, deposits)
  else
    let scalingFactor := maxWithdrawalUSD / totalWithdrawalUSD
    (withdrawals.map (fun w =>
      { poolID := w.poolID, deltaUSD := w.deltaUSD * scalingFactor,
        targetLPShares := w.targetLPShares }), deposits)

/-- Ascending-by-DeltaUSD comparator of the sort in processWithdrawals
(largest withdrawal first, since withdrawal deltas are negative). -/
def deltaAscRel (a b : ExtendedAction) : Prop := a.deltaUSD ≤ b.deltaUSD

instance : DecidableRel deltaAscRel := fun a b => inferInstanceAs (Decidable (a.deltaUSD ≤ b.deltaUSD))

instance : IsTotal ExtendedAction deltaAscRel := ⟨fun a b => le_total a.deltaUSD b.deltaUSD⟩

instance : IsTrans ExtendedAction deltaAscRel := ⟨fun _ _ _ h1 h2 => le_trans h1 h2⟩

/-- Descending-by-DeltaUSD comparator of the sort in processDeposits
(largest deposit first). -/
def deltaDescRel (a b : ExtendedAction) : Prop := b.deltaUSD ≤ a.deltaUSD

instance : DecidableRel deltaDescRel := fun a b => inferInstanceAs (Decidable (b.deltaUSD ≤ a.deltaUSD))

instance : IsTotal ExtendedAction deltaDescRel := ⟨fun a b => le_total b.deltaUSD a.deltaUSD⟩

instance : IsTrans ExtendedAction deltaDescRel := ⟨fun _ _ _ h1 h2 => le_trans h2 h1⟩

/-- Go map accumulation m[denom] += amount with insertion of missing keys
(the non-USDC tracking map of processWithdrawals). -/
def upsertAdd (l : List (String × ℤ)) (denom : String) (amt : ℤ) : List (String × ℤ) :=
  if l.any (fun p => p.1 = denom) then
    l.map (fun p => if p.1 = denom then (p.1, p.2 + amt) else p)
  else l ++ [(denom, amt)]

/-- The received-assets tracking loop of processWithdrawals: USDC amounts
are converted and added to the simulated liquid balance, other denoms are
accumulated for consolidation. -/
def trackAmounts (usdcToken : Token) : List (String × ℤ) → ℚ → List (String × ℤ) →
    Except String (ℚ × List (String × ℤ))
  | [], liquid, nonUSDC => .ok (liquid, nonUSDC)
  | (denom, amt) :: rest, liquid, nonUSDC =>
    if denom = usdcToken.ibcDenom then
      match utils.SDKIntToFloat64 amt usdcToken.precision with
      | .error e => .error e
      | .ok usdcReceived => trackAmounts usdcToken rest (liquid + usdcReceived) nonUSDC
    else trackAmounts usdcToken rest liquid (upsertAdd nonUSDC denom amt)

/-- The per-withdrawal loop of processWithdrawals.  simExit is the external
SimulateLeavePool call, a parameter of the model. -/
def withdrawLoop (simExit : PoolID → ℤ → Except String ExitPoolEstimationResult)
    (currentPositions : List Position) (poolsData : List (PoolID × Pool))
    (usdcToken : Token) (scoringParams : ScoringParameters) :
    List ExtendedAction → ℚ → List (String × ℤ) → List SubAction →
    Except String (List SubAction × ℚ × List (String × ℤ))
  | [], liquid, nonUSDC, actions => .ok (actions, liquid, nonUSDC)
  | w :: rest, liquid, nonUSDC, actions =>
    match findPosition currentPositions w.poolID with
    | none => withdrawLoop simExit currentPositions poolsData usdcToken scoringParams
        rest liquid nonUSDC actions
    | some currentPos =>
      let sharesToWithdraw := currentPos.lpShares - w.targetLPShares
      if sharesToWithdraw ≤ 0 then
        withdrawLoop simExit currentPositions poolsData usdcToken scoringParams
          rest liquid nonUSDC actions
      else
        match lookupID poolsData w.poolID with
        | none => .error "pool data missing for withdrawal"
        | some poolInfo =>
          match simExit w.poolID sharesToWithdraw with
          | .error _ => .error "failed to simulate leave pool"
          | .ok exitEst =>
            if exitEst.slippage < 0 then .error "exit estimation slippage is negative"
            else if exitEst.amountsOut.length = 0 then
              .error "exit estimation returned no amounts"
            else
              -- slippage above the limit only logs a warning and proceeds
              let maxSlippage := getSlippageLimit poolInfo scoringParams
              let action := SubAction.withdrawLP w.poolID sharesToWithdraw
                usdcToken.ibcDenom exitEst.amountsOut exitEst.slippage maxSlippage
              match trackAmounts usdcToken exitEst.amountsOut liquid nonUSDC with
              | .error e => .error e
              | .ok (liquid2, nonUSDC2) =>
                withdrawLoop simExit currentPositions poolsData usdcToken scoringParams
                  rest liquid2 nonUSDC2 (actions ++ [action])

/-- Embedding of planner.processWithdrawals. -/
def processWithdrawals (simExit : PoolID → ℤ → Except String ExitPoolEstimationResult)
    (withdrawals : List ExtendedAction) (currentPositions : List Position)
    (poolsData : List (PoolID × Pool)) (simulatedLiquidUSDC : ℚ)
    (usdcToken : Token) (scoringParams : ScoringParameters) :
    Except String (List SubAction × ℚ × List (String × ℤ)) :=
  withdrawLoop simExit currentPositions poolsData usdcToken scoringParams
    (List.insertionSort deltaAscRel withdrawals) simulatedLiquidUSDC [] []

/-- Embedding of planner.findViableDepositAmount.  simJoin is the external
SimulateJoinPool call on a single USDC coin, a parameter of the model; the
reduced amount uses integer arithmetic with the truncated percentage of the
reduction factor, as the code does. -/
def findViableDepositAmount (simJoin : PoolID → ℤ → Except String JoinPoolEstimationResult)
    (poolID : PoolID) (amountIn : ℤ) (poolInfo : Pool)
    (scoringParams : ScoringParameters) :
    Except String (JoinPoolEstimationResult × ℤ) :=
  let maxSlippage := getSlippageLimit poolInfo scoringParams
  let firstViable : Option (JoinPoolEstimationResult × ℤ) :=
    match simJoin poolID amountIn with
    | .ok joinEst => if joinEst.slippage ≤ maxSlippage then some (joinEst, amountIn) else none
    | .error _ => none
  match firstViable with
  | some r => .ok r
  | none =>
    let reductionFactorInt := truncateInt (scoringParams.viableDepositReductionFactor * 100)
    let reducedAmount := Int.tdiv (amountIn * reductionFactorInt) 100
    match simJoin poolID reducedAmount with
    | .ok joinEst =>
      if joinEst.slippage ≤ maxSlippage then .ok (joinEst, reducedAmount)
      else .error "no viable deposit amount found within slippage tolerance"
    | .error _ => .error "no viable deposit amount found within slippage tolerance"

/-- The per-deposit loop of processDeposits.  Besides the emitted actions
the model also returns the final simulated liquid USDC and the trace of its
values after each handled deposit, which the invariants below quantify
over. -/
def depositLoop (simJoin : PoolID → ℤ → Except String JoinPoolEstimationResult)
    (poolsData : List (PoolID × Pool)) (usdcToken : Token)
    (scoringParams : ScoringParameters) :
    List ExtendedAction → ℚ → List SubAction → List ℚ →
    Except String (List SubAction × ℚ × List ℚ)
  | [], liquid, actions, trace => .ok (actions, liquid, trace)
  | d :: rest, liquid, actions, trace =>
    match lookupID poolsData d.poolID with
    | none => .error "pool data missing for deposit"
    | some poolInfo =>
      if d.deltaUSD ≤ 0 then
        depositLoop simJoin poolsData usdcToken scoringParams rest liquid actions
          (trace ++ [liquid])
      else
        let maxAvailableForDeposit :=
          if liquid - scoringParams.minLiquidUSDCBuffer < 0 then 0
          else liquid - scoringParams.minLiquidUSDCBuffer
        let targetUSDCAmount :=
          if maxAvailableForDeposit < d.deltaUSD then maxAvailableForDeposit
          else d.deltaUSD
        if targetUSDCAmount < 1 then
          depositLoop simJoin poolsData usdcToken scoringParams rest liquid actions
            (trace ++ [liquid])
        else
          match utils.Float64ToSDKInt targetUSDCAmount usdcToken.precision with
          | .error e => .error e
          | .ok usdcAmount =>
            match findViableDepositAmount simJoin d.poolID usdcAmount poolInfo
                scoringParams with
            | .error _ =>
              -- logged and skipped in the code
              depositLoop simJoin poolsData usdcToken scoringParams rest liquid actions
                (trace ++ [liquid])
            | .ok (joinEst, finalAmount) =>
              if finalAmount = 0 then
                depositLoop simJoin poolsData usdcToken scoringParams rest liquid actions
                  (trace ++ [liquid])
              else
                let maxSlippage := getSlippageLimit poolInfo scoringParams
                let action := SubAction.depositLP d.poolID
                  [(usdcToken.ibcDenom, finalAmount)] joinEst.shareAmountOut
                  joinEst.slippage maxSlippage
                match utils.SDKIntToFloat64 finalAmount usdcToken.precision with
                | .error e => .error e
                | .ok usedUSDC =>
                  depositLoop simJoin poolsData usdcToken scoringParams rest
                    (liquid - usedUSDC) (actions ++ [action])
                    (trace ++ [liquid - usedUSDC])

/-- Embedding of planner.processDeposits. -/
def processDeposits (simJoin : PoolID → ℤ → Except String JoinPoolEstimationResult)
    (deposits : List ExtendedAction) (poolsData : List (PoolID × Pool))
    (simulatedLiquidUSDC : ℚ) (usdcToken : Token)
    (scoringParams : ScoringParameters) :
    Except String (List SubAction × ℚ × List ℚ) :=
  depositLoop simJoin poolsData usdcToken scoringParams
    (List.insertionSort deltaDescRel deposits) simulatedLiquidUSDC [] []

/-- USD value of the LP shares withdrawn by a subaction, at the pool price
per share (tvl over total shares). -/
def withdrawnUSD (poolsData : List (PoolID × Pool)) : SubAction → ℚ
  | .withdrawLP pid shares _ _ _ _ =>
    match lookupID poolsData pid with
    | some p => p.tvlUSD * (shares : ℚ) / (p.totalShares : ℚ)
    | none => 0
  | _ => 0

/-- Total USD value withdrawn by the WithdrawLP actions of a plan. -/
def totalWithdrawnUSD (poolsData : List (PoolID × Pool)) (actions : List SubAction) : ℚ :=
  (actions.map (withdrawnUSD poolsData)).sum

end planner

end AVM

namespace AVM

/-- Fixture scoring parameters for the planner theorems: rebalance threshold
10 percent, at most 5 percent of vault value withdrawn per cycle, 50 USDC
liquid buffer, 3 percent normal slippage limit. -/
def plannerWitnessParams : types.ScoringParameters :=
  { maxPools := 5, minAllocation := 0, maxAllocation := 1,
    rebalanceThresholdAmount := 10, maxRebalancePercentPerCycle := 5,
    minLiquidUSDCBuffer := 50, smartShieldSlippagePercent := 1,
    normalPoolSlippagePercent := 3, viableSwapReductionFactor := 9/10,
    viableDepositReductionFactor := 9/10, elysForcedAllocationMinimum := 0 }

/-- Fixture USDC token with precision 0 (1 unit = 1 USD) for the planner
theorems. -/
def usdcFixture : types.Token := ⟨"USDC", "uusdc", "uusdc", 0, 1⟩

/-- Fixture pools: pool 1 (the current position, 1 share = 1 USD) and pool 2
(the deposit target). -/
def plannerWitnessPools : List (types.PoolID × types.Pool) :=
  [(1, ⟨1, ⟨"ATOM", "uatom", "ibc/atom", 6, 10⟩, usdcFixture, 1000000, false, 1000000⟩),
   (2, ⟨2, ⟨"ATOM", "uatom", "ibc/atom", 6, 10⟩, usdcFixture, 10000000, false, 10000000⟩)]

/-- Fixture position: 800000 shares of pool 1 worth 800000 USD. -/
def plannerWitnessPositions : List planner.Position := [⟨1, 800000, 30, 800000⟩]

/-- Fixture exit simulator: exiting the 800000 shares of pool 1 yields
790000 USDC at 1 percent slippage. -/
def simExitFixture : types.PoolID → ℤ → Except String planner.ExitPoolEstimationResult :=
  fun pid shares =>
    if pid = 1 ∧ shares = 800000 then .ok ⟨[("uusdc", 790000)], 1/100⟩
    else .error "unexpected simulation request"

/-- C1: the withdrawal cap is not enforced on the emitted plan.
applyRebalancingLimits scales each withdrawal DeltaUSD by cap over total
(first and third conjuncts), but it copies TargetLPShares unchanged for
every input (second conjunct), and processWithdrawals computes the emitted
shares as current shares minus TargetLPShares, ignoring DeltaUSD: on a 10M
USD vault with a 5 percent cap (500000 USD) and a single 800000 USD
withdrawal, the emitted WithdrawLP action still withdraws the full 800000
USD, exceeding max_withdraw_usd plus any reasonable epsilon.  The in-code
comment says TargetLPShares will be recalculated from the scaled DeltaUSD,
but no code does, so the scaling is dead for execution purposes. -/
theorem withdrawal_cap_not_enforced :
    (∀ (withdrawals deposits : List planner.ExtendedAction) (tv : ℚ)
        (sp : types.ScoringParameters),
      ((planner.applyRebalancingLimits withdrawals deposits tv sp).1.map
          (·.targetLPShares)) = withdrawals.map (·.targetLPShares)) ∧
    planner.analyzeRequiredChanges plannerWitnessPositions [(2, 1)] 10000000
        plannerWitnessPools plannerWitnessParams =
      .ok ([⟨1, -800000, 0⟩], [⟨2, 10000000, 10000000⟩]) ∧
    planner.applyRebalancingLimits [⟨1, -800000, 0⟩] [⟨2, 10000000, 10000000⟩]
        10000000 plannerWitnessParams =
      ([⟨1, -500000, 0⟩], [⟨2, 10000000, 10000000⟩]) ∧
    planner.processWithdrawals simExitFixture [⟨1, -500000, 0⟩] plannerWitnessPositions
        plannerWitnessPools 0 usdcFixture plannerWitnessParams =
      .ok ([planner.SubAction.withdrawLP 1 800000 "uusdc" [("uusdc", 790000)]
        (1/100) (3/100)], 790000, []) ∧
    planner.totalWithdrawnUSD plannerWitnessPools
      [planner.SubAction.withdrawLP 1 800000 "uusdc" [("uusdc", 790000)]
        (1/100) (3/100)] = 800000 ∧
    (10000000 : ℚ) * (plannerWitnessParams.maxRebalancePercentPerCycle / 100) = 500000 ∧
    (500000 : ℚ) + 1 < 800000 := by
  refine ⟨?_, ?_, ?_, ?_, ?_, ?_, by norm_num⟩
  · intro w d tv sp
    unfold planner.applyRebalancingLimits
    dsimp only
    split
    · rfl
    · rw [List.map_map]
      rfl
  · norm_num +decide [planner.analyzeRequiredChanges, planner.analyzeRequiredChanges.go,
      planner.analyzeOnePool, planner.allPoolIDsOf, planner.findPosition, AVM.lookupID,
      planner.calculateTargetShares, planner.legacyDecRound6, AVM.roundHalfEven,
      AVM.truncateInt, plannerWitnessPositions, plannerWitnessPools, plannerWitnessParams,
      usdcFixture, List.eraseDups, Int.tdiv_one, Rat.num_ofNat, Rat.den_ofNat]
  · norm_num [planner.applyRebalancingLimits, AVM.mathAbs, plannerWitnessParams]
  · norm_num +decide [planner.processWithdrawals, planner.withdrawLoop,
      planner.findPosition, AVM.lookupID, planner.getSlippageLimit, planner.trackAmounts,
      planner.upsertAdd, utils.SDKIntToFloat64, List.insertionSort, List.orderedInsert,
      planner.deltaAscRel, simExitFixture, plannerWitnessPositions, plannerWitnessPools,
      plannerWitnessParams, usdcFixture]
  · norm_num +decide [planner.totalWithdrawnUSD, planner.withdrawnUSD, AVM.lookupID,
      plannerWitnessPools, usdcFixture]
  · norm_num [plannerWitnessParams]

end AVM

namespace AVM

theorem SDKIntToFloat64_ok (n p : ℤ) (y : ℚ)
    (h : utils.SDKIntToFloat64 n p = .ok y) : y = (n : ℚ) / (10:ℚ) ^ p.toNat := by
  unfold utils.SDKIntToFloat64 at h
  split_ifs at h
  cases h
  rfl

theorem Float64ToSDKInt_nonneg (x : ℚ) (p : ℤ) (n : ℤ)
    (h : utils.Float64ToSDKInt x p = .ok n) : 0 ≤ n := by
  unfold utils.Float64ToSDKInt at h
  split_ifs at h with h1 h2 h3
  · cases h; exact le_refl 0
  · cases h
    exact roundHalfEven_nonneg _ (mul_nonneg (not_lt.mp h2) (by positivity))

theorem Float64ToSDKInt_le (x : ℚ) (p : ℤ) (n : ℤ)
    (h : utils.Float64ToSDKInt x p = .ok n) :
    (n : ℚ) ≤ x * (10:ℚ) ^ p.toNat + 1/2 := by
  unfold utils.Float64ToSDKInt at h
  split_ifs at h with h1 h2 h3
  · cases h
    rw [h3]
    norm_num
  · cases h
    exact roundHalfEven_le _

namespace planner

open types

theorem findViableDepositAmount_le
    (simJoin : PoolID → ℤ → Except String JoinPoolEstimationResult)
    (poolID : PoolID) (amountIn : ℤ) (poolInfo : Pool) (sp : ScoringParameters)
    (j : JoinPoolEstimationResult) (amt : ℤ) (ha : 0 ≤ amountIn)
    (hf0 : 0 < sp.viableDepositReductionFactor)
    (hf1 : sp.viableDepositReductionFactor ≤ 1)
    (h : findViableDepositAmount simJoin poolID amountIn poolInfo sp = .ok (j, amt)) :
    amt ≤ amountIn := by
  have hrf0 : 0 ≤ truncateInt (sp.viableDepositReductionFactor * 100) := by
    rw [truncateInt_eq_floor _ (by positivity)]
    exact Int.floor_nonneg.mpr (by positivity)
  have hrf1 : truncateInt (sp.viableDepositReductionFactor * 100) ≤ 100 := by
    rw [truncateInt_eq_floor _ (by positivity)]
    have h100 : sp.viableDepositReductionFactor * 100 ≤ ((100:ℤ) : ℚ) := by
      push_cast
      nlinarith
    calc ⌊sp.viableDepositReductionFactor * 100⌋ ≤ ⌊((100:ℤ) : ℚ)⌋ :=
          Int.floor_le_floor h100
      _ = 100 := Int.floor_intCast 100
  have hred : Int.tdiv (amountIn * truncateInt (sp.viableDepositReductionFactor * 100)) 100
      ≤ amountIn := by
    have hnum : 0 ≤ amountIn * truncateInt (sp.viableDepositReductionFactor * 100) :=
      mul_nonneg ha hrf0
    rw [Int.tdiv_eq_ediv hnum (by norm_num)]
    calc amountIn * truncateInt (sp.viableDepositReductionFactor * 100) / 100
        ≤ amountIn * 100 / 100 :=
          Int.ediv_le_ediv (by norm_num) (by nlinarith)
      _ = amountIn := Int.mul_ediv_cancel _ (by norm_num)
  unfold findViableDepositAmount at h
  dsimp only at h
  split at h
  case _ r heq =>
    cases hsim : simJoin poolID amountIn with
    | ok je =>
      rw [hsim] at heq
      dsimp only at heq
      split at heq
      · cases heq
        cases h
        exact le_refl amountIn
      · exact absurd heq (by simp)
    | error e =>
      rw [hsim] at heq
      exact absurd heq (by simp)
  case _ heq =>
    split at h
    case _ je hsim =>
      split at h
      · cases h
        exact hred
      · exact absurd h (by simp)
    case _ e hsim => exact absurd h (by simp)

theorem depositLoop_invariant
    (simJoin : PoolID → ℤ → Except String JoinPoolEstimationResult)
    (poolsData : List (PoolID × Pool)) (usdcToken : Token) (sp : ScoringParameters)
    (hf0 : 0 < sp.viableDepositReductionFactor)
    (hf1 : sp.viableDepositReductionFactor ≤ 1) :
    ∀ (ds : List ExtendedAction) (liquid : ℚ) (actions : List SubAction)
      (trace : List ℚ) (out : List SubAction) (lf : ℚ) (tr : List ℚ),
    depositLoop simJoin poolsData usdcToken sp ds liquid actions trace =
      .ok (out, lf, tr) →
    min liquid (sp.minLiquidUSDCBuffer - (1/2) / (10:ℚ) ^ usdcToken.precision.toNat) ≤ lf ∧
    ∀ l ∈ tr, l ∈ trace ∨
      min liquid (sp.minLiquidUSDCBuffer - (1/2) / (10:ℚ) ^ usdcToken.precision.toNat) ≤ l := by
  intro ds
  induction ds with
  | nil =>
    intro liquid actions trace out lf tr h
    rw [depositLoop] at h
    cases h
    exact ⟨min_le_left _ _, fun l hl => Or.inl hl⟩
  | cons d rest ih =>
    intro liquid actions trace out lf tr h
    rw [depositLoop] at h
    set B := sp.minLiquidUSDCBuffer - (1/2) / (10:ℚ) ^ usdcToken.precision.toNat with hB
    have hskip : depositLoop simJoin poolsData usdcToken sp rest liquid actions
        (trace ++ [liquid]) = .ok (out, lf, tr) →
        min liquid B ≤ lf ∧ ∀ l ∈ tr, l ∈ trace ∨ min liquid B ≤ l := by
      intro hrec
      obtain ⟨h1, h2⟩ := ih liquid actions (trace ++ [liquid]) out lf tr hrec
      refine ⟨h1, fun l hl => ?_⟩
      rcases h2 l hl with hmem | hbound
      · rcases List.mem_append.mp hmem with hm | hm
        · exact Or.inl hm
        · simp only [List.mem_singleton] at hm
          exact Or.inr (hm ▸ min_le_left _ _)
      · exact Or.inr hbound
    split at h
    case _ heq => exact absurd h (by simp)
    case _ poolInfo heq =>
    split at h
    · exact hskip h
    case _ hdelta =>
    dsimp only at h
    set maxAvail := if liquid - sp.minLiquidUSDCBuffer < 0 then (0:ℚ)
      else liquid - sp.minLiquidUSDCBuffer with hMA
    set target2 := if maxAvail < d.deltaUSD then maxAvail else d.deltaUSD with hT2
    split at h
    · exact hskip h
    case _ htarget =>
    split at h
    case _ e heq2 => exact absurd h (by simp)
    case _ usdcAmount heq2 =>
    split at h
    case _ e heq3 => exact hskip h
    case _ joinEst finalAmount heq3 =>
    split at h
    · exact hskip h
    case _ hfz =>
    split at h
    case _ e heq4 => exact absurd h (by simp)
    case _ usedUSDC heq4 =>
    -- the proceeding case: derive the buffer bound on the new liquid value
    have htv : 1 ≤ target2 := le_of_not_lt htarget
    have htle : target2 ≤ maxAvail := by
      rw [hT2]
      split
      · exact le_refl _
      · exact le_of_not_lt (by assumption)
    have hma : maxAvail = liquid - sp.minLiquidUSDCBuffer := by
      rw [hMA]
      split
      case _ hneg =>
        exfalso
        have : maxAvail = 0 := by rw [hMA, if_pos hneg]
        rw [this] at htle
        linarith
      case _ => rfl
    have hpow : (0:ℚ) < (10:ℚ) ^ usdcToken.precision.toNat := by positivity
    have husdcle : (usdcAmount : ℚ) ≤ target2 * (10:ℚ) ^ usdcToken.precision.toNat + 1/2 :=
      Float64ToSDKInt_le _ _ _ heq2
    have husdcnn : 0 ≤ usdcAmount := Float64ToSDKInt_nonneg _ _ _ heq2
    have hfle : finalAmount ≤ usdcAmount :=
      findViableDepositAmount_le simJoin d.poolID usdcAmount poolInfo sp joinEst
        finalAmount husdcnn hf0 hf1 heq3
    have hused : usedUSDC = (finalAmount : ℚ) / (10:ℚ) ^ usdcToken.precision.toNat :=
      SDKIntToFloat64_ok _ _ _ heq4
    have husedle : usedUSDC ≤ target2 + (1/2) / (10:ℚ) ^ usdcToken.precision.toNat := by
      rw [hused]
      rw [div_le_iff hpow] at *
      calc (finalAmount : ℚ) ≤ (usdcAmount : ℚ) := by exact_mod_cast hfle
        _ ≤ target2 * (10:ℚ) ^ usdcToken.precision.toNat + 1/2 := husdcle
        _ = (target2 + 1/2 / (10:ℚ) ^ usdcToken.precision.toNat) *
            (10:ℚ) ^ usdcToken.precision.toNat := by
          field_simp
          ring
    have hliq2 : B ≤ liquid - usedUSDC := by
      rw [hB]
      have h1 : usedUSDC ≤ (liquid - sp.minLiquidUSDCBuffer) +
          (1/2) / (10:ℚ) ^ usdcToken.precision.toNat := by
        calc usedUSDC ≤ target2 + (1/2) / (10:ℚ) ^ usdcToken.precision.toNat := husedle
          _ ≤ (liquid - sp.minLiquidUSDCBuffer) +
              (1/2) / (10:ℚ) ^ usdcToken.precision.toNat := by
            rw [← hma]
            linarith
      linarith
    obtain ⟨h1, h2⟩ := ih (liquid - usedUSDC) (actions ++ [SubAction.depositLP d.poolID
      [(usdcToken.ibcDenom, finalAmount)] joinEst.shareAmountOut joinEst.slippage
      (getSlippageLimit poolInfo sp)]) (trace ++ [liquid - usedUSDC]) out lf tr h
    have hminB : min liquid B ≤ B := min_le_right _ _
    have htrans : min liquid B ≤ min (liquid - usedUSDC) B := by
      have : min (liquid - usedUSDC) B = B := min_eq_right hliq2
      rw [this]
      exact hminB
    refine ⟨le_trans htrans h1, fun l hl => ?_⟩
    rcases h2 l hl with hmem | hbound
    · rcases List.mem_append.mp hmem with hm | hm
      · exact Or.inl hm
      · simp only [List.mem_singleton] at hm
        exact Or.inr (hm ▸ le_trans hminB hliq2)
    · exact Or.inr (le_trans htrans hbound)

end planner

/-- C5: in the deposit phase every deposit amount is clamped to
allowable = max(0, simulated liquid minus buffer), and the accepted amount
(at most the clamped target plus half a smallest USDC unit, from the decimal
rounding of the conversion) is subtracted afterwards, so the simulated
liquid USDC tracked by the planner never drops below
min_liquid_usdc_buffer - eps at any step of the deposit phase, with
eps = (1/2) * 10^(-precision); when the phase starts below that level, no
deposit proceeds and the liquid balance never decreases (the min on the left
covers both regimes).  The reduction-factor bounds mirror
validateScoringParams, which GenerateActionPlan enforces before the deposit
phase runs. -/
theorem deposit_phase_buffer_invariant
    (simJoin : types.PoolID → ℤ → Except String planner.JoinPoolEstimationResult)
    (deposits : List planner.ExtendedAction)
    (poolsData : List (types.PoolID × types.Pool)) (liquid0 : ℚ)
    (usdcToken : types.Token) (sp : types.ScoringParameters)
    (out : List planner.SubAction) (lf : ℚ) (tr : List ℚ)
    (hf0 : 0 < sp.viableDepositReductionFactor)
    (hf1 : sp.viableDepositReductionFactor ≤ 1)
    (h : planner.processDeposits simJoin deposits poolsData liquid0 usdcToken sp =
      .ok (out, lf, tr)) :
    min liquid0 (sp.minLiquidUSDCBuffer - (1/2) / (10:ℚ) ^ usdcToken.precision.toNat) ≤ lf ∧
    ∀ l ∈ tr,
      min liquid0 (sp.minLiquidUSDCBuffer - (1/2) / (10:ℚ) ^ usdcToken.precision.toNat) ≤ l := by
  unfold planner.processDeposits at h
  obtain ⟨h1, h2⟩ := planner.depositLoop_invariant simJoin poolsData usdcToken sp hf0 hf1
    (List.insertionSort planner.deltaDescRel deposits) liquid0 [] [] out lf tr h
  refine ⟨h1, fun l hl => ?_⟩
  rcases h2 l hl with hmem | hbound
  · exact absurd hmem (List.not_mem_nil l)
  · exact hbound

/-- Witness for C5: a single 950 USD deposit from 1000 liquid with buffer 50
and unit precision 0 leaves exactly 50 liquid, within the invariant. -/
theorem deposit_phase_buffer_invariant_witness :
    min (1000:ℚ) (50 - (1/2) / (10:ℚ) ^ (0:ℤ).toNat) ≤ 50 ∧
    ∀ l ∈ [(50:ℚ)],
      min (1000:ℚ) (50 - (1/2) / (10:ℚ) ^ (0:ℤ).toNat) ≤ l := by
  have hrun : planner.processDeposits
      (fun pid amt => if pid = 7 ∧ amt = 950 then .ok ⟨900, 0⟩ else .error "unexpected")
      [⟨7, 950, 0⟩]
      [(7, ⟨7, ⟨"ATOM", "uatom", "ibc/atom", 6, 10⟩, usdcFixture, 1000000, false, 1000000⟩)]
      1000
      { symbol := "USDC", denom := "uusdc", ibcDenom := "uusdc", precision := 0,
        priceUSD := 1 }
      plannerWitnessParams =
      .ok ([planner.SubAction.depositLP 7 [("uusdc", 950)] 900 0 (3/100)], 50, [50]) := by
    norm_num +decide [planner.processDeposits, planner.depositLoop,
      planner.findViableDepositAmount, planner.getSlippageLimit, AVM.lookupID,
      utils.Float64ToSDKInt, utils.SDKIntToFloat64, AVM.roundHalfEven,
      List.insertionSort, List.orderedInsert, planner.deltaDescRel,
      plannerWitnessParams, usdcFixture]
  have := deposit_phase_buffer_invariant
    (fun pid amt => if pid = 7 ∧ amt = 950 then .ok ⟨900, 0⟩ else .error "unexpected")
    [⟨7, 950, 0⟩]
    [(7, ⟨7, ⟨"ATOM", "uatom", "ibc/atom", 6, 10⟩, usdcFixture, 1000000, false, 1000000⟩)]
    1000
    { symbol := "USDC", denom := "uusdc", ibcDenom := "uusdc", precision := 0,
      priceUSD := 1 }
    plannerWitnessParams
    [planner.SubAction.depositLP 7 [("uusdc", 950)] 900 0 (3/100)] 50 [50]
    (by norm_num [plannerWitnessParams]) (by norm_num [plannerWitnessParams]) hrun
  exact this

end AVM

namespace AVM

namespace scorer

/-- Go float64 values in the pool scorer, modeled as `Option ℚ`: `some q` is
a finite value held exactly (the model ignores rounding and overflow), and
`none` collapses NaN and the two infinities, which the code always tests
together as IsNaN(v) || IsInf(v, 0).  Arithmetic on non-finite operands
yields non-finite results in float64, so every operation propagates
`none`. -/
abbrev GoFloat := Option ℚ

def gadd : GoFloat → GoFloat → GoFloat
  | some a, some b => some (a + b)
  | _, _ => none

def gsub : GoFloat → GoFloat → GoFloat
  | some a, some b => some (a - b)
  | _, _ => none

def gmul : GoFloat → GoFloat → GoFloat
  | some a, some b => some (a * b)
  | _, _ => none

/-- Division: x/0 is ±Inf or NaN in float64, hence non-finite. -/
def gdiv : GoFloat → GoFloat → GoFloat
  | some a, some b => if b = 0 then none else some (a / b)
  | _, _ => none

def gabs : GoFloat → GoFloat
  | some a => some (mathAbs a)
  | none => none

/-- math.Pow(x, 2). -/
def gpow2 : GoFloat → GoFloat
  | some a => some (a * a)
  | none => none

/-- math.Max; a NaN or infinite argument gives a non-finite result. -/
def gmax : GoFloat → GoFloat → GoFloat
  | some a, some b => some (max a b)
  | _, _ => none

/-- math.Min; a NaN or infinite argument gives a non-finite result. -/
def gmin : GoFloat → GoFloat → GoFloat
  | some a, some b => some (min a b)
  | _, _ => none

/-- Comparison x < y.  Any comparison against NaN is false in Go; the model
extends that to the whole collapsed non-finite class.  The code only lets a
comparison on a value it has not yet checked to be finite choose between two
error paths, never between an error and a success, so the collapse never
changes whether a score is returned. -/
def glt : GoFloat → GoFloat → Bool
  | some a, some b => decide (a < b)
  | _, _ => false

/-- Comparison x ≤ y, with the same non-finite convention as `glt`. -/
def gle : GoFloat → GoFloat → Bool
  | some a, some b => decide (a ≤ b)
  | _, _ => false

/-- math.Log10 through an abstract log implementation `lg`; finite exactly
on positive finite arguments (Log10 of 0 is -Inf, of a negative is NaN). -/
def glog10 (lg : ℚ → ℚ) : GoFloat → GoFloat
  | some a => if 0 < a then some (lg a) else none
  | none => none

/-- The token fields of types.Token read by the scorer. -/
structure Token where
  symbol : String
  volatility : GoFloat
deriving DecidableEq

/-- The fields of types.Pool read by CalculatePoolScore and its component
functions. -/
structure Pool where
  id : ℕ
  tokenA : Token
  tokenB : Token
  tvlUSD : GoFloat
  volume7dUSD : GoFloat
  edenRewardsAPR : GoFloat
  usdcFeesAPR : GoFloat
  priceImpactAPR : GoFloat
  ageInDays : ℤ
  weightA : GoFloat
  weightB : GoFloat
  sentimentScore : GoFloat
  hasCurrentPosition : Bool
  currentPositionAgeDays : ℤ
  isSmartShielded : Bool
deriving DecidableEq

/-- The fields of types.ScoringParameters read by the scorer. -/
structure ScoringParameters where
  edenWeight : GoFloat
  usdcFeeWeight : GoFloat
  priceImpactWeight : GoFloat
  aprCoefficient : GoFloat
  tradingVolumeCoefficient : GoFloat
  ilRiskCoefficient : GoFloat
  volatilityCoefficient : GoFloat
  tvlCoefficient : GoFloat
  newPoolCoefficient : GoFloat
  continuityCoefficient : GoFloat
  smartShieldBonus : GoFloat
  sentimentImpactFactor : GoFloat
  minTVLThreshold : GoFloat
  poolMaturityDays : ℤ
  continuityLookbackDays : ℤ
  ilHoldingPeriodYears : GoFloat
  ilConfidenceFactor : GoFloat
  smartShieldReductionFactor : GoFloat
deriving DecidableEq

/-- The component breakdown of types.PoolScoreResult. -/
structure ScoreComponents where
  weightedAPR : GoFloat
  ilRisk : GoFloat
  annualizedVolatility : GoFloat
  rewardScoreComponent : GoFloat
  riskScoreComponent : GoFloat
  tvlScoreComponent : GoFloat
  bonusScoreComponent : GoFloat
  sentimentAdjustment : GoFloat
deriving DecidableEq

/-- Embedding of types.PoolScoreResult as filled in by CalculatePoolScore. -/
structure PoolScoreResult where
  poolID : ℕ
  score : GoFloat
  components : ScoreComponents
deriving DecidableEq

/-- Embedding of ValidatePoolData (src/unnamed/part_004).  The Go
disjunctive weight and sentiment conditions are kept; an IsNaN || IsInf
test is `= none`. -/
def ValidatePoolData (pool : Pool) : Except String Unit :=
  if pool.id = 0 then .error "pool ID cannot be zero"
  else if pool.tokenA.symbol = "" then .error "TokenA symbol cannot be empty"
  else if pool.tokenB.symbol = "" then .error "TokenB symbol cannot be empty"
  else if glt pool.tvlUSD (some 0) then .error "TVL cannot be negative"
  else if glt pool.volume7dUSD (some 0) then .error "7-day volume cannot be negative"
  else if pool.edenRewardsAPR = none then .error "eden rewards apr must be finite"
  else if pool.usdcFeesAPR = none then .error "usdc fees apr must be finite"
  else if pool.priceImpactAPR = none then .error "price impact apr must be finite"
  else if glt pool.tokenA.volatility (some 0) then
    .error "TokenA volatility cannot be negative"
  else if pool.tokenA.volatility = none then .error "TokenA volatility must be finite"
  else if pool.ageInDays < 0 then .error "pool age cannot be negative"
  else if gle (gadd pool.weightA pool.weightB) (some 0) ∨
      glt (some (1/100)) (gabs (gsub (gadd pool.weightA pool.weightB) (some 1))) then
    .error "pool weights must be positive and sum to approximately 1.0"
  else if pool.sentimentScore ≠ some 0 ∧
      (glt pool.sentimentScore (some (-1)) ∨ glt (some 1) pool.sentimentScore) then
    .error "sentiment score must be between -1.0 and 1.0"
  else if pool.hasCurrentPosition ∧ pool.currentPositionAgeDays < 0 then
    .error "current position age cannot be negative when position exists"
  else .ok ()

/-- Embedding of ValidateScoringParameters (src/unnamed/part_004).  The Go
loop over the nine coefficient finiteness checks is unrolled in source
order. -/
def ValidateScoringParameters (params : ScoringParameters) : Except String Unit :=
  if glt params.edenWeight (some 0) ∨ glt params.usdcFeeWeight (some 0) ∨
      glt params.priceImpactWeight (some 0) then
    .error "APR weights cannot be negative"
  else if gle (gadd (gadd params.edenWeight params.usdcFeeWeight)
      params.priceImpactWeight) (some 0) then
    .error "total APR weights must be positive"
  else if params.aprCoefficient = none then .error "AprCoefficient must be finite"
  else if params.tradingVolumeCoefficient = none then
    .error "TradingVolumeCoefficient must be finite"
  else if params.ilRiskCoefficient = none then .error "IlRiskCoefficient must be finite"
  else if params.volatilityCoefficient = none then
    .error "VolatilityCoefficient must be finite"
  else if params.tvlCoefficient = none then .error "TvlCoefficient must be finite"
  else if params.newPoolCoefficient = none then .error "NewPoolCoefficient must be finite"
  else if params.continuityCoefficient = none then
    .error "ContinuityCoefficient must be finite"
  else if params.smartShieldBonus = none then .error "SmartShieldBonus must be finite"
  else if params.sentimentImpactFactor = none then
    .error "SentimentImpactFactor must be finite"
  else if glt params.minTVLThreshold (some 0) then
    .error "MinTVLThreshold cannot be negative"
  else if params.poolMaturityDays < 0 then .error "PoolMaturityDays cannot be negative"
  else if params.continuityLookbackDays < 0 then
    .error "ContinuityLookbackDays cannot be negative"
  else if gle params.ilHoldingPeriodYears (some 0) then
    .error "IlHoldingPeriodYears must be positive"
  else if gle params.ilConfidenceFactor (some 0) then
    .error "IlConfidenceFactor must be positive"
  else if glt params.smartShieldReductionFactor (some 0) ∨
      glt (some 1) params.smartShieldReductionFactor then
    .error "SmartShieldReductionFactor must be between 0 and 1"
  else .ok ()

/-- Embedding of CalculateWeightedAPR (src/unnamed/part_004).  The total
weight is a sum of values already known finite, so the Go IsNaN || IsInf
check on it is vacuous in the model and dropped. -/
def CalculateWeightedAPR (pool : Pool) (params : ScoringParameters) :
    Except String GoFloat :=
  match pool.edenRewardsAPR with
  | none => .error "EdenRewardsAPR is not finite"
  | some eden =>
  match pool.usdcFeesAPR with
  | none => .error "UsdcFeesAPR is not finite"
  | some usdc =>
  match pool.priceImpactAPR with
  | none => .error "PriceImpactAPR is not finite"
  | some impact =>
  match params.edenWeight with
  | none => .error "EdenWeight is not finite"
  | some ew =>
  match params.usdcFeeWeight with
  | none => .error "UsdcFeeWeight is not finite"
  | some uw =>
  match params.priceImpactWeight with
  | none => .error "PriceImpactWeight is not finite"
  | some iw =>
  match gmul (some eden) (some ew) with
  | none => .error "eden component calculation resulted in non-finite value"
  | some edenComponent =>
  match gmul (some usdc) (some uw) with
  | none => .error "usdc component calculation resulted in non-finite value"
  | some usdcComponent =>
  match gmul (some impact) (some iw) with
  | none => .error "price impact component calculation resulted in non-finite value"
  | some impactComponent =>
  if ew + uw + iw ≤ 0 then
    .error "total APR weight is non-positive, cannot calculate weighted average"
  else
    match gdiv (some (edenComponent + usdcComponent + impactComponent))
        (some (ew + uw + iw)) with
    | none => .error "weighted APR calculation resulted in non-finite value"
    | some wapr => .ok (some wapr)

/-- Embedding of CalculateRewardScore (src/unnamed/part_004). -/
def CalculateRewardScore (lg : ℚ → ℚ) (weightedAPR : GoFloat) (pool : Pool)
    (params : ScoringParameters) : Except String GoFloat :=
  match weightedAPR with
  | none => .error "weighted APR is not finite"
  | some wapr =>
  match gmul params.aprCoefficient (some wapr) with
  | none => .error "APR score component calculation resulted in non-finite value"
  | some aprScorePart =>
  if glt pool.volume7dUSD (some 0) then .error "volume cannot be negative"
  else if pool.volume7dUSD = some 0 then
    match gadd (some aprScorePart) (some 0) with
    | none => .error "total reward score calculation resulted in non-finite value"
    | some total => .ok (some total)
  else
    match glog10 lg pool.volume7dUSD with
    | none => .error "log volume calculation resulted in non-finite value"
    | some logVolume =>
    match gmul params.tradingVolumeCoefficient (some logVolume) with
    | none => .error "volume score component calculation resulted in non-finite value"
    | some volumeScorePart =>
    match gadd (some aprScorePart) (some volumeScorePart) with
    | none => .error "total reward score calculation resulted in non-finite value"
    | some total => .ok (some total)

/-- Embedding of CalculateAgePenalty (src/unnamed/part_004). -/
def CalculateAgePenalty (pool : Pool) (params : ScoringParameters) :
    Except String GoFloat :=
  match params.newPoolCoefficient with
  | none => .error "NewPoolCoefficient is not finite"
  | some npc =>
  if params.poolMaturityDays < 0 then .error "PoolMaturityDays cannot be negative"
  else if params.poolMaturityDays = 0 then .ok (some 0)
  else if pool.ageInDays < 0 then .error "pool age cannot be negative"
  else if params.poolMaturityDays ≤ pool.ageInDays then .ok (some 0)
  else
    match gdiv (some (pool.ageInDays : ℚ)) (some (params.poolMaturityDays : ℚ)) with
    | none => .error "maturity scale calculation resulted in non-finite value"
    | some maturityScale =>
    match gsub (some 1) (some maturityScale) with
    | none => .error "penalty scale calculation resulted in non-finite value"
    | some penaltyScale =>
    match gmul (some npc) (some penaltyScale) with
    | none => .error "age penalty calculation resulted in non-finite value"
    | some agePenalty => .ok (some agePenalty)

/-- Embedding of CalculateSentimentAdjustment (src/unnamed/part_004). -/
def CalculateSentimentAdjustment (pool : Pool) (params : ScoringParameters) :
    Except String GoFloat :=
  match pool.sentimentScore with
  | none => .error "sentiment score is not finite"
  | some s =>
  match params.sentimentImpactFactor with
  | none => .error "sentiment impact factor is not finite"
  | some f =>
  if s = 0 ∨ f = 0 then .ok (some 0)
  else
    match gmul (some s) (some f) with
    | none => .error "sentiment adjustment calculation resulted in non-finite value"
    | some adj => .ok (some adj)

/-- Embedding of CalculateILRisk (src/unnamed/part_004). -/
def CalculateILRisk (annualizedVolatility : GoFloat) (isSmartShielded : Bool)
    (params : ScoringParameters) : Except String GoFloat :=
  match annualizedVolatility with
  | none => .error "annualized volatility is not finite"
  | some vol =>
  if vol < 0 then .error "annualized volatility cannot be negative"
  else
  match params.ilHoldingPeriodYears with
  | none => .error "IlHoldingPeriodYears is not finite"
  | some hold =>
  match params.ilConfidenceFactor with
  | none => .error "IlConfidenceFactor is not finite"
  | some conf =>
  match params.smartShieldReductionFactor with
  | none => .error "SmartShieldReductionFactor is not finite"
  | some ssrf =>
  if vol = 0 then .ok (some 0)
  else
  match gpow2 (some vol) with
  | none => .error "variance calculation resulted in non-finite value"
  | some variance =>
  match gmul (some variance) (some hold) with
  | none => .error "time-scaled variance calculation resulted in non-finite value"
  | some timeScaledVariance =>
  match gmul (some conf) (some timeScaledVariance) with
  | none => .error "base IL risk calculation resulted in non-finite value"
  | some ilRiskBase =>
  if isSmartShielded ∧ 0 < ssrf then
    match gsub (some 1) (some ssrf) with
    | none => .error "smart shield reduction calculation resulted in non-finite value"
    | some reductionMultiplier =>
    if reductionMultiplier < 0 then
      .error "smart shield reduction factor results in negative multiplier"
    else
      match gmul (some ilRiskBase) (some reductionMultiplier) with
      | none => .error "smart shield reduction calculation resulted in non-finite value"
      | some ilRiskFinal => .ok (some ilRiskFinal)
  else .ok (some ilRiskBase)

/-- Embedding of CalculateRiskScore (src/unnamed/part_004).  The Go loop
over the three finiteness checks on the inputs is unrolled in source
order. -/
def CalculateRiskScore (ilRisk agePenalty sentimentAdjustment : GoFloat)
    (pool : Pool) (params : ScoringParameters) : Except String GoFloat :=
  match ilRisk with
  | none => .error "IL risk is not finite"
  | some il =>
  match agePenalty with
  | none => .error "age penalty is not finite"
  | some ap =>
  match sentimentAdjustment with
  | none => .error "sentiment adjustment is not finite"
  | some sa =>
  match params.ilRiskCoefficient with
  | none => .error "IlRiskCoefficient is not finite"
  | some ilc =>
  match params.volatilityCoefficient with
  | none => .error "VolatilityCoefficient is not finite"
  | some vc =>
  match gmul (some ilc) (some il) with
  | none => .error "IL penalty calculation resulted in non-finite value"
  | some ilPenalty =>
  match gmul (some vc) pool.tokenA.volatility with
  | none => .error "volatility penalty calculation resulted in non-finite value"
  | some volatilityPenalty =>
  match gadd (gadd (gadd (some ilPenalty) (some volatilityPenalty)) (some ap))
      (some sa) with
  | none => .error "total risk score calculation resulted in non-finite value"
  | some total => .ok (some total)

/-- Embedding of CalculateLiquidityScore (src/unnamed/part_004). -/
def CalculateLiquidityScore (lg : ℚ → ℚ) (pool : Pool)
    (params : ScoringParameters) : Except String GoFloat :=
  match params.minTVLThreshold with
  | none => .error "MinTVLThreshold is not finite"
  | some minTvl =>
  match params.tvlCoefficient with
  | none => .error "TvlCoefficient is not finite"
  | some tvlc =>
  match pool.tvlUSD with
  | none => .error "pool TVL is not finite"
  | some tvl =>
  if minTvl ≤ 0 then .error "MinTVLThreshold must be positive"
  else if tvl ≤ 0 then .error "pool TVL must be positive"
  else
    match gmax (some minTvl) (some tvl) with
    | none => .error "log input must be positive"
    | some logInput =>
    if logInput ≤ 0 then .error "log input must be positive"
    else
      match glog10 lg (some logInput) with
      | none => .error "log TVL calculation resulted in non-finite value"
      | some logTvl =>
      match gmul (some tvlc) (some logTvl) with
      | none => .error "liquidity score calculation resulted in non-finite value"
      | some liquidityScore => .ok (some liquidityScore)

/-- Embedding of CalculateSmartShieldBonus (src/unnamed/part_004). -/
def CalculateSmartShieldBonus (pool : Pool) (params : ScoringParameters) :
    Except String GoFloat :=
  match params.smartShieldBonus with
  | none => .error "SmartShieldBonus parameter is not finite"
  | some b => if pool.isSmartShielded then .ok (some b) else .ok (some 0)

/-- Embedding of CalculateContinuityBonus (src/unnamed/part_004). -/
def CalculateContinuityBonus (pool : Pool) (params : ScoringParameters) :
    Except String GoFloat :=
  if ¬pool.hasCurrentPosition then .ok (some 0)
  else if params.continuityLookbackDays ≤ 0 then
    .error "ContinuityLookbackDays must be positive"
  else if pool.currentPositionAgeDays < 0 then
    .error "CurrentPositionAgeDays cannot be negative when position exists"
  else
    match params.continuityCoefficient with
    | none => .error "ContinuityCoefficient is not finite"
    | some c =>
    match gmin (some 1) (gdiv (some (pool.currentPositionAgeDays : ℚ))
        (some (params.continuityLookbackDays : ℚ))) with
    | none => .error "scale calculation resulted in non-finite value"
    | some scale =>
    match gmul (some c) (some scale) with
    | none => .error "continuity bonus calculation resulted in non-finite value"
    | some bonus => .ok (some bonus)

/-- Embedding of CalculateTotalBonusScore (src/unnamed/part_004). -/
def CalculateTotalBonusScore (shieldBonus continuityBonus : GoFloat) :
    Except String GoFloat :=
  match shieldBonus with
  | none => .error "shield bonus is not finite"
  | some sb =>
  match continuityBonus with
  | none => .error "continuity bonus is not finite"
  | some cb =>
  match gadd (some sb) (some cb) with
  | none => .error "total bonus calculation resulted in non-finite value"
  | some total => .ok (some total)

/-- Embedding of CalculatePoolScore (src/unnamed/part_004): validation, the
component calls in source order, the final score sum with its finiteness
check, and the Go loop over the four component finiteness checks, unrolled
in source order. -/
def CalculatePoolScore (lg : ℚ → ℚ) (pool : Pool) (params : ScoringParameters) :
    Except String PoolScoreResult :=
  match ValidatePoolData pool with
  | .error e => .error e
  | .ok _ =>
  match ValidateScoringParameters params with
  | .error e => .error e
  | .ok _ =>
  match CalculateWeightedAPR pool params with
  | .error e => .error e
  | .ok weightedAPR =>
  match CalculateRewardScore lg weightedAPR pool params with
  | .error e => .error e
  | .ok rewardScoreComponent =>
  match CalculateAgePenalty pool params with
  | .error e => .error e
  | .ok agePenalty =>
  match CalculateSentimentAdjustment pool params with
  | .error e => .error e
  | .ok sentimentAdjustment =>
  match CalculateILRisk pool.tokenA.volatility pool.isSmartShielded params with
  | .error e => .error e
  | .ok ilRisk =>
  match CalculateRiskScore ilRisk agePenalty sentimentAdjustment pool params with
  | .error e => .error e
  | .ok riskScoreComponent =>
  match CalculateLiquidityScore lg pool params with
  | .error e => .error e
  | .ok liquidityScoreComponent =>
  match CalculateSmartShieldBonus pool params with
  | .error e => .error e
  | .ok shieldBonus =>
  match CalculateContinuityBonus pool params with
  | .error e => .error e
  | .ok continuityBonus =>
  match CalculateTotalBonusScore shieldBonus continuityBonus with
  | .error e => .error e
  | .ok bonusScoreComponent =>
  match gadd (gadd (gadd rewardScoreComponent riskScoreComponent)
      liquidityScoreComponent) bonusScoreComponent with
  | none => .error "final score calculation resulted in NaN or Inf"
  | some finalScore =>
  match rewardScoreComponent with
  | none => .error "reward component calculation resulted in NaN or Inf"
  | some _ =>
  match riskScoreComponent with
  | none => .error "risk component calculation resulted in NaN or Inf"
  | some _ =>
  match liquidityScoreComponent with
  | none => .error "liquidity component calculation resulted in NaN or Inf"
  | some _ =>
  match bonusScoreComponent with
  | none => .error "bonus component calculation resulted in NaN or Inf"
  | some _ =>
    .ok { poolID := pool.id
          score := some finalScore
          components :=
            { weightedAPR := weightedAPR
              ilRisk := ilRisk
              annualizedVolatility := pool.tokenA.volatility
              rewardScoreComponent := rewardScoreComponent
              riskScoreComponent := riskScoreComponent
              tvlScoreComponent := liquidityScoreComponent
              bonusScoreComponent := bonusScoreComponent
              sentimentAdjustment := sentimentAdjustment } }

end scorer

end AVM

namespace AVM

namespace scorer

theorem CalculateWeightedAPR_some (pool : Pool) (params : ScoringParameters)
    (w : GoFloat) (h : CalculateWeightedAPR pool params = .ok w) : w.isSome := by
  unfold CalculateWeightedAPR at h
  repeat' first
  | (cases h; exact rfl)
  | split at h
  | exact absurd h (by simp)

theorem CalculateILRisk_some (v : GoFloat) (s : Bool) (params : ScoringParameters)
    (w : GoFloat) (h : CalculateILRisk v s params = .ok w) : w.isSome := by
  unfold CalculateILRisk at h
  repeat' first
  | (cases h; exact rfl)
  | split at h
  | exact absurd h (by simp)

theorem CalculateSentimentAdjustment_some (pool : Pool)
    (params : ScoringParameters) (w : GoFloat)
    (h : CalculateSentimentAdjustment pool params = .ok w) : w.isSome := by
  unfold CalculateSentimentAdjustment at h
  repeat' first
  | (cases h; exact rfl)
  | split at h
  | exact absurd h (by simp)

theorem ite_error_ok_cond {c : Prop} [Decidable c] {s : String}
    {b : Except String Unit} {u : Unit}
    (h : (if c then Except.error s else b) = .ok u) : ¬c ∧ b = .ok u := by
  split at h
  · exact absurd h (by simp)
  · exact ⟨by assumption, h⟩

set_option maxHeartbeats 2000000 in
theorem ValidatePoolData_volatility_some (pool : Pool) (u : Unit)
    (h : ValidatePoolData pool = .ok u) : pool.tokenA.volatility.isSome := by
  rw [ValidatePoolData.eq_def] at h
  have h1 := ite_error_ok_cond h
  have h2 := ite_error_ok_cond h1.2
  have h3 := ite_error_ok_cond h2.2
  have h4 := ite_error_ok_cond h3.2
  have h5 := ite_error_ok_cond h4.2
  have h6 := ite_error_ok_cond h5.2
  have h7 := ite_error_ok_cond h6.2
  have h8 := ite_error_ok_cond h7.2
  have h9 := ite_error_ok_cond h8.2
  have h10 := ite_error_ok_cond h9.2
  exact Option.isSome_iff_ne_none.mpr h10.1

end scorer

end AVM

namespace AVM

/-- Witness fixture: a pool with zero volume, zero volatility and a neutral
sentiment, so every scorer component is easy to evaluate by hand. -/
def scorerWitnessPool : scorer.Pool :=
  { id := 1
    tokenA := { symbol := "ATOM", volatility := some 0 }
    tokenB := { symbol := "USDC", volatility := some 0 }
    tvlUSD := some 1000000
    volume7dUSD := some 0
    edenRewardsAPR := some 1
    usdcFeesAPR := some 1
    priceImpactAPR := some 1
    ageInDays := 100
    weightA := some (1/2)
    weightB := some (1/2)
    sentimentScore := some 0
    hasCurrentPosition := false
    currentPositionAgeDays := 0
    isSmartShielded := false }

/-- Witness fixture: scoring parameters that pass ValidateScoringParameters. -/
def scorerWitnessParams : scorer.ScoringParameters :=
  { edenWeight := some 1
    usdcFeeWeight := some 1
    priceImpactWeight := some 1
    aprCoefficient := some 2
    tradingVolumeCoefficient := some 1
    ilRiskCoefficient := some (-1)
    volatilityCoefficient := some (-1)
    tvlCoefficient := some 1
    newPoolCoefficient := some (-1)
    continuityCoefficient := some 1
    smartShieldBonus := some 1
    sentimentImpactFactor := some 1
    minTVLThreshold := some 1000
    poolMaturityDays := 0
    continuityLookbackDays := 0
    ilHoldingPeriodYears := some 1
    ilConfidenceFactor := some 1
    smartShieldReductionFactor := some 0 }

/-- The score result of the witness fixture under the log stand-in
fun x => 0: weighted APR 1, reward component 2 * 1, all risk, liquidity and
bonus components 0, final score 2. -/
def scorerWitnessResult : scorer.PoolScoreResult :=
  { poolID := 1
    score := some 2
    components :=
      { weightedAPR := some 1
        ilRisk := some 0
        annualizedVolatility := some 0
        rewardScoreComponent := some 2
        riskScoreComponent := some 0
        tvlScoreComponent := some 0
        bonusScoreComponent := some 0
        sentimentAdjustment := some 0 } }

set_option maxHeartbeats 2000000 in
/-- C9: CalculatePoolScore is deterministic - two calls with equal pool and
params values (under the same log implementation, the only ambient input)
return equal results - and every result it returns without error carries a
finite score and finite components: in the Option model, the score and all
eight component fields of the returned record are some.  Finiteness of the
four summed components is checked explicitly by the code before returning;
the weighted APR, IL risk and sentiment adjustment are finite because every
successful path of their calculators ends in a checked value; the stored
annualized volatility is finite because ValidatePoolData rejects a
non-finite TokenA volatility. -/
theorem pool_score_deterministic_and_finite (lg : ℚ → ℚ)
    (pool pool2 : scorer.Pool) (params params2 : scorer.ScoringParameters)
    (r : scorer.PoolScoreResult)
    (hpool : pool2 = pool) (hparams : params2 = params)
    (h : scorer.CalculatePoolScore lg pool params = .ok r) :
    scorer.CalculatePoolScore lg pool2 params2 =
      scorer.CalculatePoolScore lg pool params ∧
    r.score.isSome ∧
    r.components.weightedAPR.isSome ∧
    r.components.ilRisk.isSome ∧
    r.components.annualizedVolatility.isSome ∧
    r.components.rewardScoreComponent.isSome ∧
    r.components.riskScoreComponent.isSome ∧
    r.components.tvlScoreComponent.isSome ∧
    r.components.bonusScoreComponent.isSome ∧
    r.components.sentimentAdjustment.isSome := by
  refine ⟨by rw [hpool, hparams], ?_⟩
  rw [scorer.CalculatePoolScore.eq_def] at h
  cases hval : scorer.ValidatePoolData pool
  case error => rw [hval] at h; exact absurd h (by simp)
  case ok u =>
  rw [hval] at h
  dsimp only at h
  cases hvsp : scorer.ValidateScoringParameters params
  case error => rw [hvsp] at h; exact absurd h (by simp)
  case ok u2 =>
  rw [hvsp] at h
  dsimp only at h
  cases hw : scorer.CalculateWeightedAPR pool params
  case error => rw [hw] at h; exact absurd h (by simp)
  case ok wAPR =>
  rw [hw] at h
  dsimp only at h
  cases hrs : scorer.CalculateRewardScore lg wAPR pool params
  case error => rw [hrs] at h; exact absurd h (by simp)
  case ok rewardSC =>
  rw [hrs] at h
  dsimp only at h
  cases hap : scorer.CalculateAgePenalty pool params
  case error => rw [hap] at h; exact absurd h (by simp)
  case ok agePen =>
  rw [hap] at h
  dsimp only at h
  cases hsa : scorer.CalculateSentimentAdjustment pool params
  case error => rw [hsa] at h; exact absurd h (by simp)
  case ok sentAdj =>
  rw [hsa] at h
  dsimp only at h
  cases hil : scorer.CalculateILRisk pool.tokenA.volatility pool.isSmartShielded params
  case error => rw [hil] at h; exact absurd h (by simp)
  case ok ilR =>
  rw [hil] at h
  dsimp only at h
  cases hrk : scorer.CalculateRiskScore ilR agePen sentAdj pool params
  case error => rw [hrk] at h; exact absurd h (by simp)
  case ok riskSC =>
  rw [hrk] at h
  dsimp only at h
  cases hlq : scorer.CalculateLiquidityScore lg pool params
  case error => rw [hlq] at h; exact absurd h (by simp)
  case ok liqSC =>
  rw [hlq] at h
  dsimp only at h
  cases hsb : scorer.CalculateSmartShieldBonus pool params
  case error => rw [hsb] at h; exact absurd h (by simp)
  case ok shieldB =>
  rw [hsb] at h
  dsimp only at h
  cases hcb : scorer.CalculateContinuityBonus pool params
  case error => rw [hcb] at h; exact absurd h (by simp)
  case ok contB =>
  rw [hcb] at h
  dsimp only at h
  cases htb : scorer.CalculateTotalBonusScore shieldB contB
  case error => rw [htb] at h; exact absurd h (by simp)
  case ok bonusSC =>
  rw [htb] at h
  dsimp only at h
  cases hfs : scorer.gadd (scorer.gadd (scorer.gadd rewardSC riskSC) liqSC) bonusSC
  case none => rw [hfs] at h; exact absurd h (by simp)
  case some finalScore =>
  rw [hfs] at h
  dsimp only at h
  cases rewardSC
  case none => exact absurd h (by simp)
  case some x1 =>
  dsimp only at h
  cases riskSC
  case none => exact absurd h (by simp)
  case some x2 =>
  dsimp only at h
  cases liqSC
  case none => exact absurd h (by simp)
  case some x3 =>
  dsimp only at h
  cases bonusSC
  case none => exact absurd h (by simp)
  case some x4 =>
  dsimp only at h
  cases h
  exact ⟨rfl, scorer.CalculateWeightedAPR_some pool params wAPR hw,
    scorer.CalculateILRisk_some pool.tokenA.volatility pool.isSmartShielded params ilR hil,
    scorer.ValidatePoolData_volatility_some pool u hval,
    rfl, rfl, rfl, rfl,
    scorer.CalculateSentimentAdjustment_some pool params sentAdj hsa⟩

set_option maxHeartbeats 2000000 in
/-- Witness for C9: the scorer on the witness fixture returns the result
scorerWitnessResult with score 2, and the claim theorem applies to it. -/
theorem pool_score_deterministic_and_finite_witness :
    scorer.CalculatePoolScore (fun x => 0) scorerWitnessPool scorerWitnessParams =
      scorer.CalculatePoolScore (fun x => 0) scorerWitnessPool scorerWitnessParams ∧
    scorerWitnessResult.score.isSome ∧
    scorerWitnessResult.components.weightedAPR.isSome ∧
    scorerWitnessResult.components.ilRisk.isSome ∧
    scorerWitnessResult.components.annualizedVolatility.isSome ∧
    scorerWitnessResult.components.rewardScoreComponent.isSome ∧
    scorerWitnessResult.components.riskScoreComponent.isSome ∧
    scorerWitnessResult.components.tvlScoreComponent.isSome ∧
    scorerWitnessResult.components.bonusScoreComponent.isSome ∧
    scorerWitnessResult.components.sentimentAdjustment.isSome := by
  have hrun : scorer.CalculatePoolScore (fun x => 0) scorerWitnessPool
      scorerWitnessParams = .ok scorerWitnessResult := by
    norm_num +decide [scorer.CalculatePoolScore, scorer.ValidatePoolData,
      scorer.ValidateScoringParameters, scorer.CalculateWeightedAPR,
      scorer.CalculateRewardScore, scorer.CalculateAgePenalty,
      scorer.CalculateSentimentAdjustment, scorer.CalculateILRisk,
      scorer.CalculateRiskScore, scorer.CalculateLiquidityScore,
      scorer.CalculateSmartShieldBonus, scorer.CalculateContinuityBonus,
      scorer.CalculateTotalBonusScore, scorer.gadd, scorer.gsub, scorer.gmul,
      scorer.gdiv, scorer.gabs, scorer.gpow2, scorer.gmax, scorer.gmin,
      scorer.glt, scorer.gle, scorer.glog10, mathAbs,
      scorerWitnessPool, scorerWitnessParams, scorerWitnessResult]
  exact pool_score_deterministic_and_finite (fun x => 0)
    scorerWitnessPool scorerWitnessPool scorerWitnessParams scorerWitnessParams
    scorerWitnessResult rfl rfl hrun

end AVM

namespace AVM

namespace avm

/-- The fields of types.CycleSnapshot that the claim speaks about: the
initial and final vault state and the allocation efficiency.  Transaction
hashes, receipts, positions, slippage and gas fees are carried alongside in
the code and do not influence when a snapshot is saved. -/
structure CycleSnapshot where
  initialVaultValueUSD : ℚ
  initialLiquidUSDC : ℚ
  finalVaultValueUSD : ℚ
  finalLiquidUSDC : ℚ
  allocationEfficiencyPercent : ℚ
deriving DecidableEq

/-- The results of the external calls RunCycle makes, one cycle's worth.
Payloads that do not influence the snapshot control flow are collapsed to
Unit; the action lists of the plan steer only through their emptiness.  The
pre- and post-execution captureVaultState calls and the final
GetPoolPositions call are omitted: their failures only select fallback data
for receipts and final positions and never abort or add a snapshot. -/
structure CycleEnv where
  supportedTokens : Except String Unit
  pools : Except String Unit
  tokens : Except String Unit
  positions : Except String Unit
  liquidUSDC : Except String ℚ
  totalVaultValue : Except String ℚ
  scores : Except String Unit
  selectTop : Except String (List types.PoolID)
  allocations : Except String Unit
  plan : Except String (List Unit × List Unit)
  execWithdraw : Except String Unit
  execDeposit : Except String Unit
  finalLiquidUSDC : Except String ℚ
  finalTotalValue : Except String ℚ
  effInitial : ℚ
  effFinal : ℚ

def isErr {α : Type} : Except String α → Bool
  | .error _ => true
  | .ok _ => false

/-- Embedding of finalizeFailedSnapshot (src/internal/avm/avm.go): the final
state is set from the totalVaultValue and liquidUSDC captured in step 2,
i.e. the initial state, and the efficiency to 0. -/
def finalizeFailedSnapshot (totalVaultValue liquidUSDC : ℚ) : CycleSnapshot :=
  { initialVaultValueUSD := totalVaultValue
    initialLiquidUSDC := liquidUSDC
    finalVaultValueUSD := totalVaultValue
    finalLiquidUSDC := liquidUSDC
    allocationEfficiencyPercent := 0 }

/-- The snapshot completed by step 6 on the success path: final values come
from the final captures, each falling back to the initial value on error. -/
def completeCycleSnapshot (env : CycleEnv) (totalVaultValue liquidUSDC : ℚ) :
    CycleSnapshot :=
  { initialVaultValueUSD := totalVaultValue
    initialLiquidUSDC := liquidUSDC
    finalVaultValueUSD :=
      match env.finalTotalValue with
      | .ok v => v
      | .error _ => totalVaultValue
    finalLiquidUSDC :=
      match env.finalLiquidUSDC with
      | .ok v => v
      | .error _ => liquidUSDC
    allocationEfficiencyPercent := env.effFinal }

/-- The deposit half of step 5 followed by step 6, entered after the
withdrawal phase succeeded or was empty. -/
def depositPhase (env : CycleEnv) (totalVaultValue liquidUSDC : ℚ)
    (depositActions : List Unit) : List CycleSnapshot :=
  if 0 < depositActions.length then
    match env.execDeposit with
    | .error _ => [finalizeFailedSnapshot totalVaultValue liquidUSDC]
    | .ok _ => [completeCycleSnapshot env totalVaultValue liquidUSDC]
  else [completeCycleSnapshot env totalVaultValue liquidUSDC]

/-- The withdrawal half of step 5. -/
def withdrawPhase (env : CycleEnv) (totalVaultValue liquidUSDC : ℚ)
    (withdrawalActions depositActions : List Unit) : List CycleSnapshot :=
  if 0 < withdrawalActions.length then
    match env.execWithdraw with
    | .error _ => [finalizeFailedSnapshot totalVaultValue liquidUSDC]
    | .ok _ => depositPhase env totalVaultValue liquidUSDC depositActions
  else depositPhase env totalVaultValue liquidUSDC depositActions

/-- Embedding of RunCycle (src/internal/avm/avm.go) as the list of
snapshots passed to saveCycleSnapshot, in order.  Every pre-execution
failure path is a bare return; the empty-selection and empty-plan paths
save one completed snapshot; execution failures save the failed snapshot;
the success path saves the completed snapshot. -/
def RunCycle (env : CycleEnv) : List CycleSnapshot :=
  match env.supportedTokens with
  | .error _ => []
  | .ok _ =>
  match env.pools with
  | .error _ => []
  | .ok _ =>
  match env.tokens with
  | .error _ => []
  | .ok _ =>
  match env.positions with
  | .error _ => []
  | .ok _ =>
  match env.liquidUSDC with
  | .error _ => []
  | .ok liquidUSDC =>
  match env.totalVaultValue with
  | .error _ => []
  | .ok totalVaultValue =>
  match env.scores with
  | .error _ => []
  | .ok _ =>
  match env.selectTop with
  | .error _ => []
  | .ok selectedPoolIDs =>
  if selectedPoolIDs.length = 0 then
    [{ initialVaultValueUSD := totalVaultValue
       initialLiquidUSDC := liquidUSDC
       finalVaultValueUSD := totalVaultValue
       finalLiquidUSDC := liquidUSDC
       allocationEfficiencyPercent := 100 }]
  else
  match env.allocations with
  | .error _ => []
  | .ok _ =>
  match env.plan with
  | .error _ => []
  | .ok (withdrawalActions, depositActions) =>
  if withdrawalActions.length = 0 ∧ depositActions.length = 0 then
    [{ initialVaultValueUSD := totalVaultValue
       initialLiquidUSDC := liquidUSDC
       finalVaultValueUSD := totalVaultValue
       finalLiquidUSDC := liquidUSDC
       allocationEfficiencyPercent := env.effInitial }]
  else withdrawPhase env totalVaultValue liquidUSDC withdrawalActions depositActions

/-- True exactly when the cycle aborts before the execution phase and the
snapshot-saving tail: a failure in data fetching, state assessment, scoring
or selection, or - when the selection is nonempty - in allocation or
planning. -/
def preExecAborts (env : CycleEnv) : Bool :=
  isErr env.supportedTokens || isErr env.pools || isErr env.tokens ||
  isErr env.positions || isErr env.liquidUSDC || isErr env.totalVaultValue ||
  isErr env.scores ||
  (match env.selectTop with
   | .error _ => true
   | .ok selectedPoolIDs =>
     if selectedPoolIDs.length = 0 then false
     else isErr env.allocations || isErr env.plan)

theorem withdrawPhase_length (env : CycleEnv) (v l : ℚ) (w d : List Unit) :
    (withdrawPhase env v l w d).length = 1 := by
  unfold withdrawPhase depositPhase
  repeat' first
  | rfl
  | split

end avm

end AVM

namespace AVM

/-- Pre-execution failure fixture: fetching pools fails, every other step
would succeed; RunCycle returns without saving any snapshot. -/
def cyclePreFailEnv : avm.CycleEnv :=
  { supportedTokens := .ok ()
    pools := .error "rpc unavailable"
    tokens := .ok ()
    positions := .ok ()
    liquidUSDC := .ok 100
    totalVaultValue := .ok 1000
    scores := .ok ()
    selectTop := .ok [1]
    allocations := .ok ()
    plan := .ok ([()], [()])
    execWithdraw := .ok ()
    execDeposit := .ok ()
    finalLiquidUSDC := .ok 100
    finalTotalValue := .ok 1000
    effInitial := 100
    effFinal := 90 }

/-- Execution failure fixture: the cycle reaches step 5 with one withdrawal
action and the withdrawal transaction fails. -/
def cycleExecFailEnv : avm.CycleEnv :=
  { supportedTokens := .ok ()
    pools := .ok ()
    tokens := .ok ()
    positions := .ok ()
    liquidUSDC := .ok 100
    totalVaultValue := .ok 1000
    scores := .ok ()
    selectTop := .ok [1]
    allocations := .ok ()
    plan := .ok ([()], [])
    execWithdraw := .error "tx failed"
    execDeposit := .ok ()
    finalLiquidUSDC := .ok 100
    finalTotalValue := .ok 1000
    effInitial := 100
    effFinal := 90 }

/-- Counterexample to C2: when fetching pools fails, RunCycle aborts before
the snapshot-saving tail and zero snapshots are persisted, not one. -/
theorem cycle_snapshot_missing_on_pre_execution_failure :
    avm.RunCycle cyclePreFailEnv = [] ∧
    (avm.RunCycle cyclePreFailEnv).length ≠ 1 := by
  constructor
  · rfl
  · decide

/-- C2 amended: a snapshot is persisted exactly once per cycle only when
the cycle gets past planning.  Failures in data fetching, vault state
assessment, scoring, selection, allocation or planning abort the cycle with
a bare return and zero snapshots; every cycle that reaches the execution
phase (or legitimately ends with an empty selection or empty plan) persists
exactly one snapshot, and when an execution transaction fails the persisted
snapshot has final state equal to the initial state and
allocation_efficiency = 0, as finalizeFailedSnapshot sets them. -/
theorem cycle_snapshot_per_cycle_amended
    (env env2 : avm.CycleEnv) (v l : ℚ) (ids : List types.PoolID)
    (w d : List Unit)
    (h1 : env2.supportedTokens = .ok ()) (h2 : env2.pools = .ok ())
    (h3 : env2.tokens = .ok ()) (h4 : env2.positions = .ok ())
    (h5 : env2.liquidUSDC = .ok l) (h6 : env2.totalVaultValue = .ok v)
    (h7 : env2.scores = .ok ()) (h8 : env2.selectTop = .ok ids)
    (hids : ids.length ≠ 0)
    (h9 : env2.allocations = .ok ()) (h10 : env2.plan = .ok (w, d))
    (hfail : (w.length ≠ 0 ∧ ∃ s, env2.execWithdraw = .error s) ∨
      (d.length ≠ 0 ∧ (w.length = 0 ∨ env2.execWithdraw = .ok ()) ∧
        ∃ s, env2.execDeposit = .error s)) :
    (avm.RunCycle env).length = (if avm.preExecAborts env then 0 else 1) ∧
    avm.RunCycle env2 = [avm.finalizeFailedSnapshot v l] ∧
    (avm.finalizeFailedSnapshot v l).finalVaultValueUSD =
      (avm.finalizeFailedSnapshot v l).initialVaultValueUSD ∧
    (avm.finalizeFailedSnapshot v l).finalLiquidUSDC =
      (avm.finalizeFailedSnapshot v l).initialLiquidUSDC ∧
    (avm.finalizeFailedSnapshot v l).allocationEfficiencyPercent = 0 := by
  refine ⟨?_, ?_, rfl, rfl, rfl⟩
  · cases hst : env.supportedTokens
    case error =>
      simp [avm.RunCycle, avm.preExecAborts, avm.isErr, hst]
    case ok u1 =>
    cases hpl : env.pools
    case error =>
      simp [avm.RunCycle, avm.preExecAborts, avm.isErr, hst, hpl]
    case ok u2 =>
    cases htk : env.tokens
    case error =>
      simp [avm.RunCycle, avm.preExecAborts, avm.isErr, hst, hpl, htk]
    case ok u3 =>
    cases hps : env.positions
    case error =>
      simp [avm.RunCycle, avm.preExecAborts, avm.isErr, hst, hpl, htk, hps]
    case ok u4 =>
    cases hlq : env.liquidUSDC
    case error =>
      simp [avm.RunCycle, avm.preExecAborts, avm.isErr, hst, hpl, htk, hps, hlq]
    case ok liq =>
    cases htv : env.totalVaultValue
    case error =>
      simp [avm.RunCycle, avm.preExecAborts, avm.isErr, hst, hpl, htk, hps, hlq, htv]
    case ok tot =>
    cases hsc : env.scores
    case error =>
      simp [avm.RunCycle, avm.preExecAborts, avm.isErr, hst, hpl, htk, hps, hlq,
        htv, hsc]
    case ok u5 =>
    cases hsel : env.selectTop
    case error =>
      simp [avm.RunCycle, avm.preExecAborts, avm.isErr, hst, hpl, htk, hps, hlq,
        htv, hsc, hsel]
    case ok ids2 =>
    by_cases hid2 : ids2.length = 0
    · simp [avm.RunCycle, avm.preExecAborts, avm.isErr, hst, hpl, htk, hps, hlq,
        htv, hsc, hsel, hid2]
    · cases hal : env.allocations with
      | error e =>
        simp [avm.RunCycle, avm.preExecAborts, avm.isErr, hst, hpl, htk, hps, hlq,
          htv, hsc, hsel, hid2, hal]
      | ok u6 =>
        cases hpn : env.plan with
        | error e =>
          simp [avm.RunCycle, avm.preExecAborts, avm.isErr, hst, hpl, htk, hps, hlq,
            htv, hsc, hsel, hid2, hal, hpn]
        | ok pr =>
          obtain ⟨w2, d2⟩ := pr
          by_cases hpe : w2 = [] ∧ d2 = []
          · simp [avm.RunCycle, avm.preExecAborts, avm.isErr, hst, hpl, htk, hps,
              hlq, htv, hsc, hsel, hid2, hal, hpn, hpe]
          · simp [avm.RunCycle, avm.preExecAborts, avm.isErr, hst, hpl, htk, hps,
              hlq, htv, hsc, hsel, hid2, hal, hpn, hpe, avm.withdrawPhase_length]
  · have hnp : ¬(w.length = 0 ∧ d.length = 0) := by
      rcases hfail with ⟨hw, _⟩ | ⟨hd, _, _⟩
      · exact fun hc => hw hc.1
      · exact fun hc => hd hc.2
    rw [avm.RunCycle.eq_def, h1, h2, h3, h4, h5, h6, h7, h8]
    dsimp only
    rw [if_neg hids, h9]
    dsimp only
    rw [h10]
    dsimp only
    rw [if_neg hnp]
    rcases hfail with ⟨hw, s, hs⟩ | ⟨hd, hws, s, hs⟩
    · unfold avm.withdrawPhase
      rw [if_pos (Nat.pos_of_ne_zero hw), hs]
    · have hstep : avm.withdrawPhase env2 v l w d = avm.depositPhase env2 v l d := by
        unfold avm.withdrawPhase
        rcases hws with hw0 | hwok
        · rw [if_neg (by simp [hw0])]
        · split
          · rw [hwok]
          · rfl
      rw [hstep]
      unfold avm.depositPhase
      rw [if_pos (Nat.pos_of_ne_zero hd), hs]

/-- Witness for C2 amended: a cycle whose withdrawal transaction fails
saves exactly one snapshot, the failed snapshot with final = initial and
efficiency 0. -/
theorem cycle_snapshot_per_cycle_amended_witness :
    (avm.RunCycle cycleExecFailEnv).length =
      (if avm.preExecAborts cycleExecFailEnv then 0 else 1) ∧
    avm.RunCycle cycleExecFailEnv = [avm.finalizeFailedSnapshot 1000 100] ∧
    (avm.finalizeFailedSnapshot (1000:ℚ) 100).finalVaultValueUSD =
      (avm.finalizeFailedSnapshot 1000 100).initialVaultValueUSD ∧
    (avm.finalizeFailedSnapshot (1000:ℚ) 100).finalLiquidUSDC =
      (avm.finalizeFailedSnapshot 1000 100).initialLiquidUSDC ∧
    (avm.finalizeFailedSnapshot (1000:ℚ) 100).allocationEfficiencyPercent = 0 :=
  cycle_snapshot_per_cycle_amended cycleExecFailEnv cycleExecFailEnv 1000 100
    [1] [()] [] rfl rfl rfl rfl rfl rfl rfl rfl (by decide) rfl rfl
    (Or.inl ⟨by decide, "tx failed", rfl⟩)

end AVM
